import Mathlib

/-!
# The `dat://` protocol handler of Beaker (`src/app/bg/dat/protocol.js`)

A shallow embedding of `electronHandler`.  The handler is an `async` function:
it runs synchronously up to each `await`, is resumed by the completion of the
awaited call, and registers three callbacks (the deadline timer, the sniffer
callback of `mime.identifyStream`, and the `end` / `error` listeners of the file
read stream).  It is embedded as a deterministic step function on an explicit
state: every `Event` is one turn of the JavaScript event loop, and one `step`
runs the code that this turn executes, to its next `await` or `return`.

Collaborators that live outside `protocol.js` (URL parser, range parser,
`decodeURIComponent`, type registry, mime helpers, ...) are the fields of `Env`;
the results of the awaited calls arrive inside the events.
-/

namespace Beaker

/-! ## Strings -/

/-- Whether the second list begins with the first one. -/
def startsWithChars : List Char → List Char → Bool
  | [], _ => true
  | _ :: _, [] => false
  | a :: as, b :: bs => a == b && startsWithChars as bs

/-- Whether `needle` occurs in `hay` as a contiguous block. -/
def includesChars (hay needle : List Char) : Bool :=
  match hay with
  | [] => needle.isEmpty
  | c :: cs => startsWithChars needle (c :: cs) || includesChars cs needle

/-- JavaScript `s.includes(sub)`. -/
def includes (s sub : String) : Bool :=
  includesChars s.data sub.data

/-- JavaScript `s.endsWith(suf)`. -/
def endsWith (s suf : String) : Bool :=
  startsWithChars suf.data.reverse s.data.reverse

/-- Position of the first `c` in the list, the `-1` of JavaScript being `none`. -/
def indexOfChar (c : Char) : List Char → Option Nat
  | [] => none
  | x :: xs => if x = c then some 0 else (indexOfChar c xs).map Nat.succ

/-- JavaScript `s.indexOf(c)` for a one-character needle. -/
def indexOf (s : String) (c : Char) : Option Nat :=
  indexOfChar c s.data

/-- JavaScript `s.slice(0, n)`. -/
def sliceTo (s : String) (n : Nat) : String :=
  ⟨s.data.take n⟩

/-- JavaScript truthiness of a string: only the empty string is falsy. -/
def truthy (s : String) : Bool :=
  !s.data.isEmpty

/-- JavaScript `a || b` on two optional strings (`undefined` and `''` are falsy). -/
def orElseStr (a b : Option String) : Option String :=
  match a with
  | some s => if truthy s then some s else b
  | none => b

/-! ## Requests, responses and collaborator values -/

/-- The fields of `request.headers` that the handler reads. -/
structure ReqHeaders where
  Accept : Option String := none
  Range : Option String := none
  range : Option String := none
deriving DecidableEq, Repr

/-- The `request` object given to the handler. -/
structure Request where
  url : String
  method : String
  headers : ReqHeaders := {}
deriving DecidableEq, Repr

/-- The result of `parseDatUrl(url, true)`; an absent component is the empty
(falsy) string, and `downloadAs` is `urlp.query.download_as`. -/
structure UrlP where
  host : String := ""
  version : String := ""
  path : String := ""
  pathname : String := ""
  search : String := ""
  href : String := ""
  downloadAs : Option String := none
deriving DecidableEq, Repr

/-- Value of the manifest field `content_security_policy`. -/
inductive CspField
  | absent
  | str (s : String)
  | other (isTruthy : Bool)
deriving DecidableEq, Repr

/-- The manifest object returned by `readManifest`. -/
structure Manifest where
  type : Option String := none
  title : Option String := none
  content_security_policy : CspField := .absent
deriving DecidableEq, Repr

/-- The entry returned by the path resolver. -/
structure Entry where
  path : String
  size : Nat
  isDirectory : Bool
deriving DecidableEq, Repr

/-- One `{start, end}` element of the array returned by `range-parser`. -/
structure ByteRange where
  start : Nat
  stop : Nat
deriving DecidableEq, Repr

/-- The value returned by `parseRange(size, header)`: `-1`, `-2`, or a non-empty
array carrying a `type` property. -/
inductive RangeResult
  | unsatisfiable
  | malformed
  | ranges (type : String) (first : ByteRange) (rest : List ByteRange)
deriving DecidableEq, Repr

/-- The local variable `range` of the handler. -/
inductive RangeVar
  | noHeader
  | unparsed (r : RangeResult)
  | first (r : ByteRange)
deriving DecidableEq, Repr

/-- The argument object of `errorPage`, after `respondError` stamped it. -/
structure ErrorPageInfo where
  title : Option String := none
  errorDescription : Option String := none
  errorInfo : Option String := none
  resource : Option String := none
  validatedURL : Option String := none
  errorCode : Option Nat := none
deriving DecidableEq, Repr

/-- What `errorPage` is called with: the info object, or `code + ' ' + status`. -/
inductive ErrorPageArg
  | info (i : ErrorPageInfo)
  | text (s : String)
deriving DecidableEq, Repr

/-- The `data` stream of a response. -/
inductive Body
  | text (s : String)
  | dataStream (path : String) (range : RangeVar)
  | zipStream (checkoutFS : String) (filepath : String)
deriving DecidableEq, Repr

/-- An ordered header object. -/
abbrev Headers := List (String × String)

/-- Assignment `headers[k] = v`. -/
def setHeader : Headers → String → String → Headers
  | [], k, v => [(k, v)]
  | (k', v') :: t, k, v => if k' = k then (k, v) :: t else (k', v') :: setHeader t k v

/-- Lookup `headers[k]`. -/
def getHeader : Headers → String → Option String
  | [], _ => none
  | (k', v') :: t, k => if k' = k then some v' else getHeader t k

/-- The call `Object.assign(headers, more)`. -/
def assignHeaders (h more : Headers) : Headers :=
  more.foldl (fun acc kv => setHeader acc kv.1 kv.2) h

/-- The object passed to `respond`. -/
structure Response where
  statusCode : Nat
  headers : Option Headers := none
  data : Option Body := none
deriving DecidableEq, Repr

/-- The collaborators that the handler calls synchronously. -/
structure Env where
  parseDatUrl : String → UrlP
  decodeURIComponent : String → Option String
  getDriveHandler : String → Option String
  acceptHeaderWantsHTML : Option String → Bool
  parseRange : Nat → String → RangeResult
  slugify : String → String
  toLowerCase : String → String
  joinPath : String → String → String
  errorPage : ErrorPageArg → String
  mdRender : String → String

/-! ## The state of one request -/

/-- Calls that the handler makes on its collaborators, in the order made. -/
inductive Effect
  | resolveName (host : String)
  | setTimeout (ms : Nat)
  | clearTimeout
  | timedOut
  | getOrLoadArchive (key : String)
  | getArchiveCheckout (archive : String) (version : String)
  | readManifest
  | getDefaultDriveHandler (type : Option String)
  | toZipStream (checkoutFS : String) (filepath : String)
  | resolvePath (accept : Option String)
  | readFile (path : String)
  | createReadStream (path : String) (range : RangeVar)
  | destroyFileReadStream
  | destroyDataStream
  | warn (msg : String)
deriving DecidableEq, Repr

/-- The timer behind the variable `timeout`. -/
inductive Timer
  | unset
  | armed
  | cleared
  | fired
deriving DecidableEq, Repr

/-- Where the `async` function stands: the `await` it is suspended at, or
`streaming` once it has returned with the stream callbacks registered, or
`returned` after a `return`, or `threw` when an exception left the function. -/
inductive Pc
  | resolvingName
  | loadingArchive
  | checkingOut
  | readingManifest
  | lookingUpHandler
  | resolvingPath
  | readingFile
  | streaming
  | returned
  | threw
deriving DecidableEq, Repr

/-- One turn of the event loop that concerns this request: the completion of
an awaited call (`none` when it rejected), the deadline timer, or a stream
callback. -/
inductive Event
  | nameResolved (r : Option String)
  | archiveLoaded (r : Option String)
  | checkedOut (r : Option String)
  | manifestRead (r : Option (Option Manifest))
  | defaultHandler (r : Option String)
  | pathResolved (r : Option (Option Entry))
  | fileRead (r : Option String)
  | timeout
  | sniffed (mimeType : String)
  | streamEnd
  | streamError
deriving DecidableEq, Repr

/-- The variables of one invocation, the `called` flag of `once(respond)`, the
calls received by the host callback and the calls made on collaborators. -/
structure State where
  pc : Pc
  called : Bool := false
  hostCalls : List Response := []
  effects : List Effect := []
  timer : Timer := .unset
  urlp : UrlP
  archiveKey : String := ""
  archive : Option String := none
  filepath : String := ""
  hasTrailingSlash : Bool := false
  checkoutFS : String := ""
  manifest : Option Manifest := none
  handler : String := ""
  canExecuteHTML : Bool := false
  cspHeader : String := "default-src * 'unsafe-inline'"
  statusCode : Nat := 200
  headers : Headers := []
  entry : Option Entry := none
  range : RangeVar := .noHeader
  fileReadStream : Bool := false
  headersSent : Bool := false
  endListener : Bool := false
  errorListener : Bool := false
deriving DecidableEq, Repr

/-- The constant `REQUEST_TIMEOUT_MS`. -/
def REQUEST_TIMEOUT_MS : Nat := 30000

/-- Record a call on a collaborator. -/
def emit (s : State) (e : Effect) : State :=
  { s with effects := s.effects ++ [e] }

/-- The wrapped callback `respond = once(respond)`: the host callback runs only
when the `called` flag is still false. -/
def respond (s : State) (r : Response) : State :=
  if s.called then s else { s with called := true, hostCalls := s.hostCalls ++ [r] }

/-- The object that `respondError(code, status, errorPageInfo)` passes to
`respond` (lines 84-101). -/
def errorResponse (env : Env) (req : Request) (code : Nat) (status : String)
    (errorPageInfo : Option ErrorPageInfo) : Response :=
  let errorPageInfo := errorPageInfo.map fun i =>
    { i with validatedURL := some req.url, errorCode := some code }
  let accept := req.headers.Accept.getD ""
  if includes accept "text/html" then
    { statusCode := code
      headers := some
        [("Content-Type", "text/html"),
         ("Content-Security-Policy", "default-src 'unsafe-inline' beaker:;"),
         ("Access-Control-Allow-Origin", "*")]
      data := some (.text (env.errorPage
        (match errorPageInfo with
         | some i => .info i
         | none => .text (toString code ++ " " ++ status)))) }
  else
    { statusCode := code }

/-- The closure `respondError(code, status, errorPageInfo)`. -/
def respondError (env : Env) (req : Request) (s : State) (code : Nat) (status : String)
    (errorPageInfo : Option ErrorPageInfo) : State :=
  respond s (errorResponse env req code status errorPageInfo)

/-- The closure `cleanup = () => clearTimeout(timeout)`. -/
def cleanup (s : State) : State :=
  { emit s .clearTimeout with timer := if s.timer = .armed then .cleared else s.timer }

/-- The function `renderMD`. -/
def renderMD (env : Env) (content : String) : String :=
  "<html>\n  <body>\n    " ++ env.mdRender content ++ "\n  </body>\n</html>"

/-- The document served to bootstrap the drive handler application. -/
def shellDocument (env : Env) (handler : String) : String :=
  "<meta charset=\"utf-8\">\n<link rel=\"stylesheet\" href=\""
    ++ env.joinPath handler "drive-handler.css"
    ++ "\">\n<script type=\"module\" src=\""
    ++ env.joinPath handler "drive-handler.js"
    ++ "\"></script>\n"

/-! ## The handler, one turn at a time -/

/-- Lines 73-124: from the call of `electronHandler` to `await datDns.resolveName`. -/
def start (env : Env) (req : Request) : State :=
  let urlp := env.parseDatUrl req.url
  let s : State := { pc := .returned, urlp := urlp }
  if !truthy urlp.host then
    respondError env req s 404 "Archive Not Found"
      (some { title := some "Archive Not Found"
              errorDescription := some "Invalid URL"
              errorInfo := some (req.url ++ " is an invalid dat:// URL") })
  else if req.method ≠ "GET" ∧ req.method ≠ "HEAD" then
    respondError env req s 405 "Method Not Supported" none
  else
    { emit s (.resolveName urlp.host) with pc := .resolvingName }

/-- Lines 124-153: name resolution settled; arm the timer, start the archive load. -/
def onNameResolved (env : Env) (req : Request) (s : State) : Option String → State
  | none =>
    { respondError env req s 404 ("No DNS record found for " ++ s.urlp.host)
        (some { errorDescription := some "No DNS record found"
                errorInfo := some ("No DNS record found for dat://" ++ s.urlp.host) })
      with pc := .returned }
  | some key =>
    let s := { s with archiveKey := key }
    let s := { emit s (.setTimeout REQUEST_TIMEOUT_MS) with timer := .armed }
    { emit s (.getOrLoadArchive key) with pc := .loadingArchive }

/-- Lines 135-149: the callback given to `setTimeout`. -/
def onTimeout (env : Env) (req : Request) (s : State) : State :=
  let s := { emit s .timedOut with timer := .fired }
  let s := if s.fileReadStream then
      { emit s .destroyFileReadStream with fileReadStream := false }
    else s
  let resource := if s.archive.isSome then "page" else "site"
  respondError env req s 504 ("Timed out searching for " ++ resource)
    (some { resource := some resource, validatedURL := some s.urlp.href })

/-- Lines 153-168: archive load settled; decode the path, start the checkout. -/
def onArchiveLoaded (env : Env) (req : Request) (s : State) : Option String → State
  | none =>
    let s := emit s (.warn "Failed to open archive")
    let s := cleanup s
    { respondError env req s 500 "Failed" none with pc := .returned }
  | some a =>
    let s := { s with archive := some a }
    match env.decodeURIComponent s.urlp.path with
    | none => { s with pc := .threw }
    | some filepath =>
      let filepath := if !truthy filepath then "/" else filepath
      let filepath := match indexOf filepath '?' with
        | some i => sliceTo filepath i
        | none => filepath
      let s := { s with filepath := filepath, hasTrailingSlash := endsWith filepath "/" }
      { emit s (.getArchiveCheckout a s.urlp.version) with pc := .checkingOut }

/-- Lines 168-177: checkout settled; start reading the manifest. -/
def onCheckedOut (env : Env) (req : Request) (s : State) : Option String → State
  | none =>
    let s := emit s (.warn "Failed to open archive checkout")
    let s := cleanup s
    { respondError env req s 500 "Failed" none with pc := .returned }
  | some fs =>
    let s := { s with checkoutFS := fs }
    { emit s .readManifest with pc := .readingManifest }

/-- Lines 207-240: the zip download branch. -/
def serveZip (env : Env) (req : Request) (s : State) : State :=
  let s := cleanup s
  let zipname := match s.manifest with
    | some m => env.toLowerCase (env.slugify (m.title.getD ""))
    | none => ""
  let zipname := if truthy zipname then zipname else "archive"
  let headers : Headers :=
    [("Content-Type", "application/zip"),
     ("Content-Disposition", "attachment; filename=\"" ++ zipname ++ ".zip\""),
     ("Content-Security-Policy", s.cspHeader),
     ("Access-Control-Allow-Origin", "*")]
  if req.method = "HEAD" then
    { respond s { statusCode := 204, headers := some headers, data := some (.text "") }
      with pc := .returned }
  else
    let s := emit s (.toZipStream s.checkoutFS s.filepath)
    { respond s { statusCode := 200, headers := some headers
                  data := some (.zipStream s.checkoutFS s.filepath) }
      with pc := .returned }

/-- Lines 182-245: the handler is known; serve the shell, the zip, or start
the path resolution. -/
def serve (env : Env) (req : Request) (s : State) (handler : String) : State :=
  let canExecuteHTML := decide (handler = "website")
  let s := { s with handler := handler, canExecuteHTML := canExecuteHTML }
  if !canExecuteHTML && env.acceptHeaderWantsHTML req.headers.Accept then
    { respond s { statusCode := 200
                  headers := some [("Content-Type", "text/html")]
                  data := some (.text (shellDocument env handler)) }
      with pc := .returned }
  else
    let s := match s.manifest with
      | some m =>
        match m.content_security_policy with
        | .str c => if truthy c then { s with cspHeader := c } else s
        | _ => s
      | none => s
    if s.urlp.downloadAs = some "zip" then
      serveZip env req s
    else
      let s := { s with statusCode := 200, headers := [] }
      { emit s (.resolvePath req.headers.Accept) with pc := .resolvingPath }

/-- Lines 177-181: manifest read settled (a throw gives `null`); pick the handler. -/
def onManifestRead (env : Env) (req : Request) (s : State) (r : Option (Option Manifest)) :
    State :=
  let manifest := match r with
    | some m => m
    | none => none
  let s := { s with manifest := manifest }
  let type := match manifest with
    | some m => m.type
    | none => none
  match orElseStr (env.getDriveHandler req.url) none with
  | some h => serve env req s h
  | none => { emit s (.getDefaultDriveHandler type) with pc := .lookingUpHandler }

/-- Line 181: `typeRegistry.getDefaultDriveHandler` settled. -/
def onDefaultHandler (env : Env) (req : Request) (s : State) : Option String → State
  | none => { s with pc := .threw }
  | some h => serve env req s h

/-- Lines 267-274: the not-found response. -/
def notFound (env : Env) (req : Request) (s : State) : State :=
  let s := cleanup s
  { respondError env req s 404 "File Not Found"
      (some { errorDescription := some "File Not Found"
              errorInfo := some ("Beaker could not find the file " ++ s.urlp.path)
              title := some "File Not Found" })
    with pc := .returned }

/-- The test `range && range.type === 'bytes'` with the element `range[0]`
that line 300 then takes. -/
def bytesRange : RangeVar → Option ByteRange
  | .unparsed (.ranges type r _) => if type = "bytes" then some r else none
  | _ => none

/-- Lines 297-298: the `Range` (or `range`) header, parsed against the size. -/
def readRange (env : Env) (req : Request) (entry : Entry) : RangeVar :=
  match orElseStr req.headers.Range req.headers.range with
  | some r => if truthy r then .unparsed (env.parseRange entry.size r) else .noHeader
  | none => .noHeader

/-- Lines 296-308: `Accept-Ranges`, then the range or length headers. -/
def rangeHeaders (s : State) (entry : Entry) (range : RangeVar) : State :=
  let headers := setHeader s.headers "Accept-Ranges" "bytes"
  match bytesRange range with
  | some r =>
    let headers := setHeader headers "Content-Range"
      ("bytes " ++ toString r.start ++ "-" ++ toString r.stop ++ "/" ++ toString entry.size)
    let headers := setHeader headers "Content-Length"
      ("" ++ toString ((r.stop : Int) - (r.start : Int) + 1))
    { s with range := .first r, statusCode := 206, headers := headers }
  | none =>
    let headers := if entry.size ≠ 0 then
        setHeader headers "Content-Length" ("" ++ toString entry.size)
      else headers
    { s with range := range, headers := headers }

/-- Lines 310-314: the policy, CORS and cache headers. -/
def commonHeaders (s : State) : State :=
  let more : Headers :=
    [("Content-Security-Policy", s.cspHeader),
     ("Access-Control-Allow-Origin", "*"),
     ("Cache-Control", "no-cache")]
  { s with headers := assignHeaders s.headers more }

/-- Lines 316-331 and 365-384: read a markdown file whole, or open the read
stream and register its listeners. -/
def openEntry (env : Env) (req : Request) (s : State) (entry : Entry) : State :=
  if s.range = .noHeader && endsWith entry.path ".md"
      && env.acceptHeaderWantsHTML req.headers.Accept then
    { emit s (.readFile entry.path) with pc := .readingFile }
  else
    let s := emit s (.createReadStream entry.path s.range)
    { s with fileReadStream := true, endListener := true, errorListener := true,
             pc := .streaming }

/-- Lines 295-384 up to the next turn: serve a file entry. -/
def serveEntry (env : Env) (req : Request) (s : State) (entry : Entry) : State :=
  openEntry env req (commonHeaders (rangeHeaders s entry (readRange env req entry))) entry

/-- Lines 245-274: path resolution settled; redirect a directory, answer 404, or
go on to serve the file entry. -/
def onPathResolved (env : Env) (req : Request) (s : State) : Option (Option Entry) → State
  | none => { s with pc := .threw }
  | some none => notFound env req { s with entry := none }
  | some (some e) =>
    if e.isDirectory then
      let s := cleanup { s with entry := some e }
      if !s.hasTrailingSlash then
        { respond s
            { statusCode := 303
              headers := some
                [("Location", "dat://" ++ s.urlp.host
                    ++ (if truthy s.urlp.version then "+" ++ s.urlp.version else "")
                    ++ s.urlp.pathname ++ "/" ++ s.urlp.search)]
              data := some (.text "") }
          with pc := .returned }
      else
        notFound env req { s with entry := none }
    else
      serveEntry env req { s with entry := some e } e

/-- Lines 318-327: `readFile` settled; respond with the markdown, rendered or raw. -/
def onFileRead (env : Env) (s : State) : Option String → State
  | none => { s with pc := .threw }
  | some content =>
    let contentType := if s.canExecuteHTML then "text/html" else "text/plain"
    let content := if s.canExecuteHTML then renderMD env content else content
    let s := { s with headers := assignHeaders s.headers [("Content-Type", contentType)] }
    { respond s { statusCode := 200, headers := some s.headers, data := some (.text content) }
      with pc := .returned }

/-- Lines 333-363: the callback given to `mime.identifyStream`. -/
def onSniffed (req : Request) (s : State) (mimeType : String) : State :=
  let s := cleanup s
  let mimeType := if !s.canExecuteHTML && includes mimeType "html" then "text/plain"
    else mimeType
  let s := { s with headersSent := true }
  let s := { s with headers := assignHeaders s.headers [("Content-Type", mimeType)] }
  if req.method = "HEAD" then
    let s := emit s .destroyDataStream
    respond s { statusCode := 204, headers := some s.headers, data := some (.text "") }
  else
    respond s
      { statusCode := s.statusCode, headers := some s.headers
        data := some (.dataStream ((s.entry.map Entry.path).getD "") s.range) }

/-- Lines 366-378: the `end` listener of the file read stream. -/
def onStreamEnd (s : State) : State :=
  let s := { s with endListener := false }
  if !s.headersSent then
    let s := cleanup s
    respond s
      { statusCode := 200
        headers := some
          [("Content-Security-Policy", s.cspHeader),
           ("Access-Control-Allow-Origin", "*")]
        data := some (.text "") }
  else s

/-- Lines 381-384: the `error` listener of the file read stream. -/
def onStreamError (env : Env) (req : Request) (s : State) : State :=
  let s := { s with errorListener := false }
  let s := emit s (.warn "Error reading file")
  if !s.headersSent then respondError env req s 500 "Failed to read file" none else s

/-- One turn of the event loop.  An event that no pending `await`, armed timer
or registered listener is waiting for leaves the state as it is. -/
def step (env : Env) (req : Request) (s : State) : Event → State
  | .timeout => if s.timer = .armed then onTimeout env req s else s
  | .nameResolved r => if s.pc = .resolvingName then onNameResolved env req s r else s
  | .archiveLoaded r => if s.pc = .loadingArchive then onArchiveLoaded env req s r else s
  | .checkedOut r => if s.pc = .checkingOut then onCheckedOut env req s r else s
  | .manifestRead r => if s.pc = .readingManifest then onManifestRead env req s r else s
  | .defaultHandler r => if s.pc = .lookingUpHandler then onDefaultHandler env req s r else s
  | .pathResolved r => if s.pc = .resolvingPath then onPathResolved env req s r else s
  | .fileRead r => if s.pc = .readingFile then onFileRead env s r else s
  | .sniffed m => if s.pc = .streaming then onSniffed req s m else s
  | .streamEnd => if s.pc = .streaming ∧ s.endListener then onStreamEnd s else s
  | .streamError => if s.pc = .streaming ∧ s.errorListener then onStreamError env req s else s

/-- The state of `electronHandler(request, respond)` after the given turns. -/
def electronHandler (env : Env) (req : Request) (evs : List Event) : State :=
  evs.foldl (step env req) (start env req)

/-- The status codes that the host callback received. -/
def statusCodes (s : State) : List Nat :=
  s.hostCalls.map Response.statusCode

/-! ## A concrete environment -/

/-- A URL parser for the requests used below. -/
def sampleParse (url : String) : UrlP :=
  if url = "dat://example.com/docs" then
    { host := "example.com", path := "/docs", pathname := "/docs", href := url }
  else if url = "dat://example.com/docs?download_as=zip" then
    { host := "example.com", path := "/docs?download_as=zip", pathname := "/docs"
      search := "?download_as=zip", href := url, downloadAs := some "zip" }
  else if url = "dat://example.com/readme.md" then
    { host := "example.com", path := "/readme.md", pathname := "/readme.md", href := url }
  else if url = "dat://example.com/docs/" then
    { host := "example.com", path := "/docs/", pathname := "/docs/", href := url }
  else if url = "dat://example.com/docs%2F" then
    { host := "example.com", path := "/docs%2F", pathname := "/docs%2F", href := url }
  else if url = "dat://example.com/a%3Fb/" then
    { host := "example.com", path := "/a%3Fb/", pathname := "/a%3Fb/", href := url }
  else if url = "dat://example.com/%" then
    { host := "example.com", path := "/%", pathname := "/%", href := url }
  else if url = "dat://example.com+5/docs?x=1" then
    { host := "example.com", version := "5", path := "/docs?x=1", pathname := "/docs"
      search := "?x=1", href := url }
  else
    { href := url }

/-- Percent-decoding on the paths used below: `%3F` is `?`, `%2F` is `/`, a lone
`%` throws. -/
def sampleDecode (p : String) : Option String :=
  if p = "/a%3Fb/" then some "/a?b/"
  else if p = "/docs%2F" then some "/docs/"
  else if p = "/%" then none
  else some p

/-- An environment: the default handler is never overridden, HTML is wanted
exactly when the Accept header is `text/html`, and `bytes=0-99` on 500 bytes
is the one range that parses. -/
def sampleEnv : Env where
  parseDatUrl := sampleParse
  decodeURIComponent := sampleDecode
  getDriveHandler := fun _ => none
  acceptHeaderWantsHTML := fun a => decide (a = some "text/html")
  parseRange := fun size h =>
    if size = 500 ∧ h = "bytes=0-99" then .ranges "bytes" ⟨0, 99⟩ [] else .malformed
  slugify := fun t => t
  toLowerCase := fun t => t
  joinPath := fun a b => a ++ "/" ++ b
  errorPage := fun _ => "<error page>"
  mdRender := fun t => t

/-- A `POST` to a URL without a host. -/
def postNoHost : Request :=
  { url := "dat://", method := "POST" }

/-- A `DELETE` to a well-formed URL. -/
def deleteDocs : Request :=
  { url := "dat://example.com/docs", method := "DELETE" }

/-- A `GET` of a well-formed URL. -/
def getDocs : Request :=
  { url := "dat://example.com/docs", method := "GET" }

/-- A `GET` of the same URL by a client that wants HTML. -/
def getDocsHtml : Request :=
  { url := "dat://example.com/docs", method := "GET", headers := { Accept := some "text/html" } }

/-- A `GET` of a URL whose path holds a malformed percent escape. -/
def getBadEscape : Request :=
  { url := "dat://example.com/%", method := "GET" }

/-- A `HEAD` request for the first hundred bytes. -/
def headRange : Request :=
  { url := "dat://example.com/docs", method := "HEAD", headers := { Range := some "bytes=0-99" } }

/-- A `GET` request for the first hundred bytes. -/
def getRange : Request :=
  { url := "dat://example.com/docs", method := "GET", headers := { Range := some "bytes=0-99" } }

/-- A `GET` of a versioned URL with a query. -/
def getVersioned : Request :=
  { url := "dat://example.com+5/docs?x=1", method := "GET" }

/-- A `GET` of a URL whose pathname ends with `/` after an encoded `?`. -/
def getEncodedQuery : Request :=
  { url := "dat://example.com/a%3Fb/", method := "GET" }

/-- A `GET` of a URL whose pathname ends with an encoded `/`. -/
def getEncodedSlash : Request :=
  { url := "dat://example.com/docs%2F", method := "GET" }

/-- A `GET` of a URL whose path ends with `/`. -/
def getDocsSlash : Request :=
  { url := "dat://example.com/docs/", method := "GET" }

/-- The turns that bring a request to the path resolution, on an archive
without manifest whose default handler is the one given. -/
def upToPath (handler : String) : List Event :=
  [.nameResolved (some "key"), .archiveLoaded (some "archive"), .checkedOut (some "fs"),
   .manifestRead (some none), .defaultHandler (some handler)]

/-- A file entry of 500 bytes. -/
def docsFile : Entry :=
  { path := "/docs", size := 500, isDirectory := false }

/-- A markdown file entry. -/
def readmeFile : Entry :=
  { path := "/docs/readme.md", size := 12, isDirectory := false }

/-- A directory entry. -/
def docsDir : Entry :=
  { path := "/docs", size := 0, isDirectory := true }

/-- A header of a response, when the response has headers and this one is set. -/
def responseHeader (r : Response) (k : String) : Option String :=
  r.headers.bind fun h => getHeader h k

/-! ## Predicates used by the statements -/

/-- The guard of `once(respond)`: the host callback has run exactly when the
`called` flag is set, and then exactly one time. -/
def OnceInv (s : State) : Prop :=
  (s.called = false ∧ s.hostCalls = []) ∨ (s.called = true ∧ ∃ r, s.hostCalls = [r])

/-- Lines 161-163: the decoded path with its query cut off, when decoding succeeds. -/
def requestedPath (env : Env) (urlp : UrlP) : Option String :=
  (env.decodeURIComponent urlp.path).map fun filepath =>
    let filepath := if !truthy filepath then "/" else filepath
    match indexOf filepath '?' with
    | some i => sliceTo filepath i
    | none => filepath

/-- The stages that come after line 164, where `filepath` has been computed. -/
def Pc.pathParsed : Pc → Bool
  | .checkingOut | .readingManifest | .lookingUpHandler | .resolvingPath
  | .readingFile | .streaming => true
  | _ => false

/-- Facts that hold in every state that a request can reach. -/
structure Inv (env : Env) (req : Request) (s : State) : Prop where
  urlp : s.urlp = env.parseDatUrl req.url
  unset : s.pc = .resolvingName → s.timer = .unset
  armed : s.called = false → s.pc ≠ .resolvingName → s.timer = .armed
  returned : s.pc = .returned → s.called = true
  fresh : s.pc = .resolvingPath → s.headers = [] ∧ s.statusCode = 200
  canExec : s.canExecuteHTML = decide (s.handler = "website")
  slash : s.hasTrailingSlash = endsWith s.filepath "/"
  path : s.pc.pathParsed = true → requestedPath env s.urlp = some s.filepath
  noStream : s.pc ≠ .streaming → s.fileReadStream = false
  notSent : s.called = false → s.headersSent = false

/-- How one turn may change what the host saw: not at all, or by one call
appended while the `called` flag goes from false to true. -/
def Guarded (s t : State) : Prop :=
  (t.called = s.called ∧ t.hostCalls = s.hostCalls) ∨
    (s.called = false ∧ t.called = true ∧ ∃ r, t.hostCalls = s.hostCalls ++ [r])


/-- Lines 106 and 200-203: the policy that `cspHeader` holds once the manifest
has been looked at. -/
def manifestCsp : Option Manifest → String
  | some m =>
    match m.content_security_policy with
    | .str c => if truthy c then c else "default-src * 'unsafe-inline'"
    | _ => "default-src * 'unsafe-inline'"
  | none => "default-src * 'unsafe-inline'"

/-- Lines 209-214: the name of the zip file. -/
def zipName (env : Env) : Option Manifest → String
  | some m =>
    if truthy (env.toLowerCase (env.slugify (m.title.getD ""))) then
      env.toLowerCase (env.slugify (m.title.getD ""))
    else "archive"
  | none => "archive"

/-- Line 181: the handler, given the answer of the default-handler lookup. -/
def chosenHandler (env : Env) (req : Request) (dflt : String) : String :=
  (orElseStr (env.getDriveHandler req.url) none).getD dflt

/-- Line 185: whether the handler shell is served. -/
def servesShell (env : Env) (req : Request) (handler : String) : Bool :=
  !decide (handler = "website") && env.acceptHeaderWantsHTML req.headers.Accept

/-- Lines 299-300: the variable `range` after the test for a byte range. -/
def rangeAfter (R : RangeVar) : RangeVar :=
  match bytesRange R with
  | some r => .first r
  | none => R

/-- Line 317: whether a file entry is read whole and answered as markdown. -/
def rendersInline (env : Env) (req : Request) (entry : Entry) : Bool :=
  decide (readRange env req entry = .noHeader) && endsWith entry.path ".md"
    && env.acceptHeaderWantsHTML req.headers.Accept

/-- The calls that resolve a path or read archive content. -/
def isRead : Effect → Bool
  | .resolvePath _ | .readFile _ | .createReadStream _ _ | .toZipStream _ _ => true
  | _ => false

/-- The stages before the handler is known. -/
def Pc.early : Pc → Bool
  | .resolvingName | .loadingArchive | .checkingOut | .readingManifest
  | .lookingUpHandler => true
  | _ => false

/-- Further facts that hold in every state that a request can reach. -/
structure StageInv (env : Env) (req : Request) (s : State) : Prop where
  gate : s.pc = .resolvingPath →
    s.canExecuteHTML = true ∨ env.acceptHeaderWantsHTML req.headers.Accept = false
  csp : s.pc = .resolvingPath → s.cspHeader = manifestCsp s.manifest
  cspInit : s.pc.early = true → s.cspHeader = "default-src * 'unsafe-inline'"
  noRead : s.pc.early = true → s.effects.any isRead = false

/-- An `errorPage` that shows what it was called with. -/
def echoErrorPage : ErrorPageArg → String
  | .text t => "text: " ++ t
  | .info i => "info: " ++ i.validatedURL.getD "" ++ " " ++ toString (i.errorCode.getD 0)

/-- The sample environment with that `errorPage`. -/
def echoEnv : Env :=
  { sampleEnv with errorPage := echoErrorPage }

/-- A `DELETE` by a client that accepts HTML. -/
def deleteDocsHtml : Request :=
  { url := "dat://example.com/docs", method := "DELETE"
    headers := { Accept := some "text/html" } }

/-- A `GET` of the zip of the archive. -/
def getZip : Request :=
  { url := "dat://example.com/docs?download_as=zip", method := "GET" }

/-- A `HEAD` for the zip of the archive. -/
def headZip : Request :=
  { url := "dat://example.com/docs?download_as=zip", method := "HEAD" }

/-- A `GET` of the zip of the archive by a client that wants HTML. -/
def getZipHtml : Request :=
  { url := "dat://example.com/docs?download_as=zip", method := "GET"
    headers := { Accept := some "text/html" } }

/-- A `GET` of a markdown file by a client that wants HTML, with a `Range`
header that is no range. -/
def getReadmeBadRange : Request :=
  { url := "dat://example.com/readme.md", method := "GET"
    headers := { Accept := some "text/html", Range := some "garbage" } }

/-- An info object whose caller filled in `validatedURL` and `errorCode`. -/
def staleInfo : ErrorPageInfo :=
  { resource := some "site", validatedURL := some "dat://elsewhere/", errorCode := some 1 }

/-- A `GET` of a markdown file by a client that wants HTML. -/
def getReadmeHtml : Request :=
  { url := "dat://example.com/readme.md", method := "GET"
    headers := { Accept := some "text/html" } }

/-- The markdown file entry of that request. -/
def readme : Entry :=
  { path := "/readme.md", size := 4, isDirectory := false }

/-- An empty file entry. -/
def emptyFile : Entry :=
  { path := "/docs/empty.txt", size := 0, isDirectory := false }

/-- An empty markdown file entry. -/
def emptyReadme : Entry :=
  { path := "/docs/readme.md", size := 0, isDirectory := false }

/-- A manifest that declares a title and a policy. -/
def blogManifest : Manifest :=
  { type := some "website", title := some "blog"
    content_security_policy := .str "default-src 'self'" }

end Beaker


namespace Beaker

/-! ## The emission guard -/

theorem guarded_refl (s : State) : Guarded s s :=
  Or.inl ⟨rfl, rfl⟩

theorem guarded_trans {a b c : State} (h₁ : Guarded a b) (h₂ : Guarded b c) : Guarded a c := by
  unfold Guarded at *
  rcases h₁ with ⟨hc, hh⟩ | ⟨hc, hc', r, hh⟩
  · rcases h₂ with ⟨kc, kh⟩ | ⟨kc, kc', r, kh⟩
    · exact Or.inl ⟨kc.trans hc, kh.trans hh⟩
    · exact Or.inr ⟨hc ▸ kc, kc', r, hh ▸ kh⟩
  · rcases h₂ with ⟨kc, kh⟩ | ⟨kc, _, _, _⟩
    · exact Or.inr ⟨hc, kc.trans hc', r, kh.trans hh⟩
    · rw [hc'] at kc; cases kc

theorem guarded_of_same {s t : State} (hc : t.called = s.called)
    (hh : t.hostCalls = s.hostCalls) : Guarded s t :=
  Or.inl ⟨hc, hh⟩

theorem guarded_respond (s : State) (r : Response) : Guarded s (respond s r) := by
  unfold Guarded respond
  cases h : s.called <;> simp [h]

theorem guarded_respondError (env : Env) (req : Request) (s : State) (code : Nat)
    (status : String) (info : Option ErrorPageInfo) :
    Guarded s (respondError env req s code status info) := by
  exact guarded_respond _ _

theorem guarded_cleanup (s : State) : Guarded s (cleanup s) :=
  guarded_of_same rfl rfl

theorem guarded_emit (s : State) (e : Effect) : Guarded s (emit s e) :=
  guarded_of_same rfl rfl

/-- Moving the program counter does not touch what the host saw. -/
theorem guarded_setPc {s t : State} (h : Guarded s t) (pc : Pc) :
    Guarded s { t with pc := pc } :=
  guarded_trans h (guarded_of_same rfl rfl)

theorem onceInv_of_guarded {s t : State} (hs : OnceInv s) (h : Guarded s t) : OnceInv t := by
  unfold OnceInv Guarded at *
  rcases h with ⟨hc, hh⟩ | ⟨hc, hc', r, hh⟩
  · rw [hc, hh]; exact hs
  · rcases hs with ⟨_, hn⟩ | ⟨ht, _⟩
    · exact Or.inr ⟨hc', r, by rw [hh, hn]; rfl⟩
    · rw [ht] at hc; cases hc

/-- Once the host has been called, a guarded turn changes nothing it saw. -/
theorem hostCalls_of_guarded {s t : State} (hs : OnceInv s) (hne : s.hostCalls ≠ [])
    (h : Guarded s t) : t.hostCalls = s.hostCalls := by
  unfold OnceInv Guarded at *
  rcases h with ⟨_, hh⟩ | ⟨hc, _, _, _⟩
  · exact hh
  · rcases hs with ⟨_, hn⟩ | ⟨ht, _⟩
    · exact absurd hn hne
    · rw [ht] at hc; cases hc

theorem onceInv_start (env : Env) (req : Request) : OnceInv (start env req) := by
  have blank : ∀ u : UrlP, OnceInv { pc := .returned, urlp := u } :=
    fun _ => Or.inl ⟨rfl, rfl⟩
  unfold start
  dsimp only
  split
  · exact onceInv_of_guarded (blank _) (guarded_respondError _ _ _ _ _ _)
  · split
    · exact onceInv_of_guarded (blank _) (guarded_respondError _ _ _ _ _ _)
    · exact Or.inl ⟨rfl, rfl⟩

theorem guarded_onNameResolved (env : Env) (req : Request) (s : State) (r : Option String) :
    Guarded s (onNameResolved env req s r) := by
  cases r with
  | none => exact guarded_setPc (guarded_respondError _ _ _ _ _ _) _
  | some k => exact guarded_of_same rfl rfl

theorem guarded_onTimeout (env : Env) (req : Request) (s : State) :
    Guarded s (onTimeout env req s) := by
  unfold onTimeout
  dsimp only
  refine guarded_trans ?_ (guarded_respondError _ _ _ _ _ _)
  split <;> exact guarded_of_same rfl rfl

theorem guarded_onArchiveLoaded (env : Env) (req : Request) (s : State) (r : Option String) :
    Guarded s (onArchiveLoaded env req s r) := by
  cases r with
  | none =>
    exact guarded_setPc (guarded_trans (guarded_of_same rfl rfl)
      (guarded_respondError _ _ _ _ _ _)) _
  | some a =>
    unfold onArchiveLoaded
    dsimp only
    split <;> exact guarded_of_same rfl rfl

theorem guarded_onCheckedOut (env : Env) (req : Request) (s : State) (r : Option String) :
    Guarded s (onCheckedOut env req s r) := by
  cases r with
  | none =>
    exact guarded_setPc (guarded_trans (guarded_of_same rfl rfl)
      (guarded_respondError _ _ _ _ _ _)) _
  | some fs => exact guarded_of_same rfl rfl

theorem guarded_serveZip (env : Env) (req : Request) (s : State) :
    Guarded s (serveZip env req s) := by
  unfold serveZip
  dsimp only
  split
  · exact guarded_setPc (guarded_trans (guarded_cleanup s) (guarded_respond _ _)) _
  · exact guarded_setPc (guarded_trans (guarded_of_same rfl rfl) (guarded_respond _ _)) _

theorem guarded_serve (env : Env) (req : Request) (s : State) (h : String) :
    Guarded s (serve env req s h) := by
  unfold serve
  dsimp only
  split
  · exact guarded_setPc (guarded_trans (guarded_of_same rfl rfl) (guarded_respond _ _)) _
  · have key : ∀ t : State, Guarded s t →
        Guarded s (if t.urlp.downloadAs = some "zip" then serveZip env req t
          else { emit { t with statusCode := 200, headers := [] }
                   (.resolvePath req.headers.Accept) with pc := .resolvingPath }) := by
      intro t ht
      split
      · exact guarded_trans ht (guarded_serveZip _ _ _)
      · exact guarded_trans ht (guarded_of_same rfl rfl)
    apply key
    split
    · split
      · split <;> exact guarded_of_same rfl rfl
      · exact guarded_of_same rfl rfl
    · exact guarded_of_same rfl rfl

theorem guarded_onManifestRead (env : Env) (req : Request) (s : State)
    (r : Option (Option Manifest)) : Guarded s (onManifestRead env req s r) := by
  unfold onManifestRead
  dsimp only
  split
  · exact guarded_trans (guarded_of_same rfl rfl) (guarded_serve _ _ _ _)
  · exact guarded_of_same rfl rfl

theorem guarded_onDefaultHandler (env : Env) (req : Request) (s : State) (r : Option String) :
    Guarded s (onDefaultHandler env req s r) := by
  cases r with
  | none => exact guarded_of_same rfl rfl
  | some h => exact guarded_serve _ _ _ _

theorem guarded_notFound (env : Env) (req : Request) (s : State) :
    Guarded s (notFound env req s) :=
  guarded_setPc (guarded_trans (guarded_cleanup s) (guarded_respondError _ _ _ _ _ _)) _

theorem guarded_serveEntry (env : Env) (req : Request) (s : State) (e : Entry) :
    Guarded s (serveEntry env req s e) := by
  have h₁ : ∀ (t : State) (r : RangeVar), Guarded t (rangeHeaders t e r) := by
    intro t r
    unfold rangeHeaders
    dsimp only
    split <;> exact guarded_of_same rfl rfl
  have h₂ : ∀ t : State, Guarded t (openEntry env req t e) := by
    intro t
    unfold openEntry
    split <;> exact guarded_of_same rfl rfl
  exact guarded_trans (guarded_trans (h₁ _ _) (guarded_of_same rfl rfl)) (h₂ _)

theorem guarded_onPathResolved (env : Env) (req : Request) (s : State)
    (r : Option (Option Entry)) : Guarded s (onPathResolved env req s r) := by
  unfold onPathResolved
  split
  · exact guarded_of_same rfl rfl
  · exact guarded_trans (guarded_of_same rfl rfl) (guarded_notFound _ _ _)
  · dsimp only
    split
    · split
      · exact guarded_setPc (guarded_trans (guarded_of_same rfl rfl) (guarded_respond _ _)) _
      · exact guarded_trans (guarded_of_same rfl rfl) (guarded_notFound _ _ _)
    · exact guarded_trans (guarded_of_same rfl rfl) (guarded_serveEntry _ _ _ _)

theorem guarded_onFileRead (env : Env) (s : State) (r : Option String) :
    Guarded s (onFileRead env s r) := by
  cases r with
  | none => exact guarded_of_same rfl rfl
  | some c =>
    exact guarded_setPc (guarded_trans (guarded_of_same rfl rfl) (guarded_respond _ _)) _

theorem guarded_onSniffed (req : Request) (s : State) (m : String) :
    Guarded s (onSniffed req s m) := by
  unfold onSniffed
  dsimp only
  split <;> exact guarded_trans (guarded_of_same rfl rfl) (guarded_respond _ _)

theorem guarded_onStreamEnd (s : State) : Guarded s (onStreamEnd s) := by
  unfold onStreamEnd
  dsimp only
  split
  · exact guarded_trans (guarded_of_same rfl rfl) (guarded_respond _ _)
  · exact guarded_of_same rfl rfl

theorem guarded_onStreamError (env : Env) (req : Request) (s : State) :
    Guarded s (onStreamError env req s) := by
  unfold onStreamError
  dsimp only
  split
  · exact guarded_trans (guarded_of_same rfl rfl) (guarded_respondError _ _ _ _ _ _)
  · exact guarded_of_same rfl rfl

/-- Every turn of the event loop passes through the guard of `once`. -/
theorem guarded_step (env : Env) (req : Request) (s : State) (ev : Event) :
    Guarded s (step env req s ev) := by
  cases ev <;> unfold step <;> dsimp only <;> split
  all_goals first
    | exact guarded_refl _
    | exact guarded_onTimeout _ _ _
    | exact guarded_onNameResolved _ _ _ _
    | exact guarded_onArchiveLoaded _ _ _ _
    | exact guarded_onCheckedOut _ _ _ _
    | exact guarded_onManifestRead _ _ _ _
    | exact guarded_onDefaultHandler _ _ _ _
    | exact guarded_onPathResolved _ _ _ _
    | exact guarded_onFileRead _ _ _
    | exact guarded_onSniffed _ _ _
    | exact guarded_onStreamEnd _
    | exact guarded_onStreamError _ _ _

theorem run_append (env : Env) (req : Request) (evs more : List Event) :
    electronHandler env req (evs ++ more) = more.foldl (step env req) (electronHandler env req evs) := by
  unfold electronHandler
  rw [List.foldl_append]

theorem guarded_foldl (env : Env) (req : Request) (evs : List Event) (s : State) :
    Guarded s (evs.foldl (step env req) s) := by
  induction evs generalizing s with
  | nil => exact guarded_refl s
  | cons ev evs ih => exact guarded_trans (guarded_step env req s ev) (ih _)

theorem onceInv_run (env : Env) (req : Request) (evs : List Event) :
    OnceInv (electronHandler env req evs) :=
  onceInv_of_guarded (onceInv_start env req) (guarded_foldl env req evs _)

/-- Once the host has been called, further turns leave what it received as it is. -/
theorem hostCalls_run_append (env : Env) (req : Request) (evs more : List Event)
    (hne : (electronHandler env req evs).hostCalls ≠ []) :
    (electronHandler env req (evs ++ more)).hostCalls = (electronHandler env req evs).hostCalls := by
  rw [run_append]
  exact hostCalls_of_guarded (onceInv_run env req evs) hne (guarded_foldl env req more _)

/-- C1. Whatever the request and whatever turns of the event loop follow it
(deadline expiry, completions, sniffer callback, stream `end` and `error`, in any
order and number), the host callback is invoked at most once, and once it has
been invoked no later turn changes what it received. -/
theorem respond_at_most_once (env : Env) (req : Request) (evs : List Event) :
    (electronHandler env req evs).hostCalls.length ≤ 1 ∧
      ∀ more : List Event, (electronHandler env req evs).hostCalls ≠ [] →
        (electronHandler env req (evs ++ more)).hostCalls = (electronHandler env req evs).hostCalls := by
  constructor
  · rcases onceInv_run env req evs with ⟨_, h⟩ | ⟨_, r, h⟩ <;> simp [h]
  · intro more hne
    exact hostCalls_run_append env req evs more hne

/-! ## Facts about reachable states -/

/-- The wrapped callback as one record update. -/
theorem respond_eq (s : State) (r : Response) :
    respond s r =
      { s with called := true
               hostCalls := if s.called then s.hostCalls else s.hostCalls ++ [r] } := by
  unfold respond
  cases h : s.called
  · simp
  · cases s
    simp_all

theorem errorResponse_statusCode (env : Env) (req : Request) (code : Nat) (status : String)
    (info : Option ErrorPageInfo) : (errorResponse env req code status info).statusCode = code := by
  unfold errorResponse
  dsimp only
  split <;> rfl

theorem empty_ne_website : ¬ ("" = "website") := by decide

theorem endsWith_empty_slash : endsWith "" "/" = false := by decide

theorem inv_start (env : Env) (req : Request) : Inv env req (start env req) := by
  unfold start
  dsimp only
  split
  · constructor <;>
      simp [respondError, respond_eq, Pc.pathParsed, empty_ne_website, endsWith_empty_slash]
  · split
    · constructor <;>
        simp [respondError, respond_eq, Pc.pathParsed, empty_ne_website, endsWith_empty_slash]
    · constructor <;> simp [emit, Pc.pathParsed, empty_ne_website, endsWith_empty_slash]

theorem inv_onNameResolved (env : Env) (req : Request) (s : State) (r : Option String)
    (h : Inv env req s) (hpc : s.pc = .resolvingName) :
    Inv env req (onNameResolved env req s r) := by
  obtain ⟨h1, h2, h3, h4, h5, h6, h7, h8, h9, h10⟩ := h
  cases r <;> constructor <;>
    simp_all [onNameResolved, respondError, respond_eq, emit, Pc.pathParsed]

theorem inv_onTimeout (env : Env) (req : Request) (s : State)
    (h : Inv env req s) (ht : s.timer = .armed) : Inv env req (onTimeout env req s) := by
  obtain ⟨h1, h2, h3, h4, h5, h6, h7, h8, h9, h10⟩ := h
  unfold onTimeout
  dsimp only
  split <;> constructor <;> simp_all [respondError, respond_eq, emit]

theorem inv_onArchiveLoaded (env : Env) (req : Request) (s : State) (r : Option String)
    (h : Inv env req s) (hpc : s.pc = .loadingArchive) :
    Inv env req (onArchiveLoaded env req s r) := by
  obtain ⟨h1, h2, h3, h4, h5, h6, h7, h8, h9, h10⟩ := h
  cases r with
  | none =>
    constructor <;>
      simp_all [onArchiveLoaded, respondError, respond_eq, cleanup, emit, Pc.pathParsed]
  | some a =>
    unfold onArchiveLoaded
    dsimp only
    split
    · constructor <;> simp_all [Pc.pathParsed]
    · constructor <;> simp_all [Pc.pathParsed, emit, requestedPath]

theorem inv_onCheckedOut (env : Env) (req : Request) (s : State) (r : Option String)
    (h : Inv env req s) (hpc : s.pc = .checkingOut) :
    Inv env req (onCheckedOut env req s r) := by
  obtain ⟨h1, h2, h3, h4, h5, h6, h7, h8, h9, h10⟩ := h
  cases r <;> constructor <;>
    simp_all [onCheckedOut, respondError, respond_eq, cleanup, emit, Pc.pathParsed]

theorem inv_serveZip (env : Env) (req : Request) (s : State)
    (h : Inv env req s) (hpc : s.pc ≠ .streaming) : Inv env req (serveZip env req s) := by
  obtain ⟨h1, h2, h3, h4, h5, h6, h7, h8, h9, h10⟩ := h
  unfold serveZip
  dsimp only
  split <;> constructor <;> simp_all [respond_eq, cleanup, emit, Pc.pathParsed]

theorem inv_serve (env : Env) (req : Request) (s : State) (handler : String)
    (h : Inv env req s) (hpc : s.pc = .readingManifest ∨ s.pc = .lookingUpHandler) :
    Inv env req (serve env req s handler) := by
  have hst : s.pc ≠ .streaming := by rcases hpc with h | h <;> simp [h]
  have hpp : s.pc.pathParsed = true := by rcases hpc with h | h <;> simp [h, Pc.pathParsed]
  have hrn : s.pc ≠ .resolvingName := by rcases hpc with h | h <;> simp [h]
  obtain ⟨h1, h2, h3, h4, h5, h6, h7, h8, h9, h10⟩ := h
  unfold serve
  dsimp only
  split
  · constructor <;> simp_all [respond_eq, Pc.pathParsed]
  · have key : ∀ t : State, Inv env req t → t.pc ≠ .streaming → t.pc.pathParsed = true →
        t.pc ≠ .resolvingName →
        Inv env req (if t.urlp.downloadAs = some "zip" then serveZip env req t
          else { emit { t with statusCode := 200, headers := [] }
                   (.resolvePath req.headers.Accept) with pc := .resolvingPath }) := by
      intro t ht hts htp htr
      split
      · exact inv_serveZip env req t ht hts
      · obtain ⟨h1, h2, h3, h4, h5, h6, h7, h8, h9, h10⟩ := ht
        constructor <;> simp_all [emit, Pc.pathParsed]
    apply key
    · split
      · split
        · split <;> constructor <;> simp_all
        · constructor <;> simp_all
      · constructor <;> simp_all
    · split
      · split
        · split <;> simp_all
        · simp_all
      · simp_all
    · split
      · split
        · split <;> simp_all
        · simp_all
      · simp_all
    · split
      · split
        · split <;> simp_all
        · simp_all
      · simp_all

theorem inv_onManifestRead (env : Env) (req : Request) (s : State)
    (r : Option (Option Manifest)) (h : Inv env req s) (hpc : s.pc = .readingManifest) :
    Inv env req (onManifestRead env req s r) := by
  have hm : ∀ m : Option Manifest, Inv env req { s with manifest := m } := by
    intro m
    obtain ⟨h1, h2, h3, h4, h5, h6, h7, h8, h9, h10⟩ := h
    constructor <;> simp_all
  unfold onManifestRead
  dsimp only
  split
  · exact inv_serve env req _ _ (hm _) (Or.inl hpc)
  · obtain ⟨h1, h2, h3, h4, h5, h6, h7, h8, h9, h10⟩ := h
    constructor <;> simp_all [emit, Pc.pathParsed]

theorem inv_onDefaultHandler (env : Env) (req : Request) (s : State) (r : Option String)
    (h : Inv env req s) (hpc : s.pc = .lookingUpHandler) :
    Inv env req (onDefaultHandler env req s r) := by
  cases r with
  | none =>
    obtain ⟨h1, h2, h3, h4, h5, h6, h7, h8, h9, h10⟩ := h
    constructor <;> simp_all [onDefaultHandler, Pc.pathParsed]
  | some handler => exact inv_serve env req s handler h (Or.inr hpc)

theorem inv_notFound (env : Env) (req : Request) (s : State)
    (h : Inv env req s) (hpc : s.pc ≠ .streaming) : Inv env req (notFound env req s) := by
  obtain ⟨h1, h2, h3, h4, h5, h6, h7, h8, h9, h10⟩ := h
  constructor <;> simp_all [notFound, respondError, respond_eq, cleanup, emit, Pc.pathParsed]

/-- The range stage writes only `range`, `statusCode` and `headers`. -/
theorem rangeHeaders_frame (s : State) (e : Entry) (r : RangeVar) :
    ∃ rg sc hd, rangeHeaders s e r = { s with range := rg, statusCode := sc, headers := hd } := by
  unfold rangeHeaders
  dsimp only
  split <;> exact ⟨_, _, _, rfl⟩

theorem inv_serveEntry (env : Env) (req : Request) (s : State) (e : Entry)
    (h : Inv env req s) (hpc : s.pc = .resolvingPath) :
    Inv env req (serveEntry env req s e) := by
  obtain ⟨h1, h2, h3, h4, h5, h6, h7, h8, h9, h10⟩ := h
  obtain ⟨rg, sc, hd, hr⟩ := rangeHeaders_frame s e (readRange env req e)
  unfold serveEntry
  rw [hr]
  unfold openEntry commonHeaders
  dsimp only
  split <;> constructor <;> simp_all [emit, Pc.pathParsed]

theorem inv_onPathResolved (env : Env) (req : Request) (s : State)
    (r : Option (Option Entry)) (h : Inv env req s) (hpc : s.pc = .resolvingPath) :
    Inv env req (onPathResolved env req s r) := by
  have he : ∀ e : Option Entry, Inv env req { s with entry := e } := by
    intro e
    obtain ⟨h1, h2, h3, h4, h5, h6, h7, h8, h9, h10⟩ := h
    constructor <;> simp_all
  have hst : s.pc ≠ .streaming := by simp [hpc]
  unfold onPathResolved
  split
  · obtain ⟨h1, h2, h3, h4, h5, h6, h7, h8, h9, h10⟩ := h
    constructor <;> simp_all [Pc.pathParsed]
  · exact inv_notFound env req _ (he _) hst
  · dsimp only
    split
    · split
      · obtain ⟨h1, h2, h3, h4, h5, h6, h7, h8, h9, h10⟩ := h
        constructor <;> simp_all [respond_eq, cleanup, emit, Pc.pathParsed]
      · obtain ⟨h1, h2, h3, h4, h5, h6, h7, h8, h9, h10⟩ := h
        constructor <;>
          simp_all [notFound, respondError, respond_eq, cleanup, emit, Pc.pathParsed]
    · exact inv_serveEntry env req _ _ (he _) hpc

theorem inv_onFileRead (env : Env) (req : Request) (s : State) (r : Option String)
    (h : Inv env req s) (hpc : s.pc = .readingFile) : Inv env req (onFileRead env s r) := by
  obtain ⟨h1, h2, h3, h4, h5, h6, h7, h8, h9, h10⟩ := h
  cases r <;> constructor <;> simp_all [onFileRead, respond_eq, Pc.pathParsed]

theorem inv_onSniffed (env : Env) (req : Request) (s : State) (m : String)
    (h : Inv env req s) (hpc : s.pc = .streaming) : Inv env req (onSniffed req s m) := by
  obtain ⟨h1, h2, h3, h4, h5, h6, h7, h8, h9, h10⟩ := h
  unfold onSniffed
  dsimp only
  split <;> constructor <;> simp_all [respond_eq, cleanup, emit, Pc.pathParsed]

theorem inv_onStreamEnd (env : Env) (req : Request) (s : State)
    (h : Inv env req s) (hpc : s.pc = .streaming) : Inv env req (onStreamEnd s) := by
  obtain ⟨h1, h2, h3, h4, h5, h6, h7, h8, h9, h10⟩ := h
  unfold onStreamEnd
  dsimp only
  split <;> constructor <;> simp_all [respond_eq, cleanup, emit, Pc.pathParsed]

theorem inv_onStreamError (env : Env) (req : Request) (s : State)
    (h : Inv env req s) (hpc : s.pc = .streaming) : Inv env req (onStreamError env req s) := by
  obtain ⟨h1, h2, h3, h4, h5, h6, h7, h8, h9, h10⟩ := h
  unfold onStreamError
  dsimp only
  split <;> constructor <;> simp_all [respondError, respond_eq, emit, Pc.pathParsed]

/-- Every turn of the event loop keeps the facts of `Inv`. -/
theorem inv_step (env : Env) (req : Request) (s : State) (ev : Event) (h : Inv env req s) :
    Inv env req (step env req s ev) := by
  cases ev <;> unfold step <;> dsimp only <;> split
  all_goals first
    | exact h
    | exact inv_onTimeout _ _ _ h (by assumption)
    | exact inv_onNameResolved _ _ _ _ h (by assumption)
    | exact inv_onArchiveLoaded _ _ _ _ h (by assumption)
    | exact inv_onCheckedOut _ _ _ _ h (by assumption)
    | exact inv_onManifestRead _ _ _ _ h (by assumption)
    | exact inv_onDefaultHandler _ _ _ _ h (by assumption)
    | exact inv_onPathResolved _ _ _ _ h (by assumption)
    | exact inv_onFileRead _ _ _ _ h (by assumption)
    | exact inv_onSniffed _ _ _ _ h (by assumption)
    | exact inv_onStreamEnd _ _ _ h (And.left (by assumption))
    | exact inv_onStreamError _ _ _ h (And.left (by assumption))

theorem inv_foldl (env : Env) (req : Request) (evs : List Event) (s : State)
    (h : Inv env req s) : Inv env req (evs.foldl (step env req) s) := by
  induction evs generalizing s with
  | nil => exact h
  | cons ev evs ih => exact ih _ (inv_step env req s ev h)

theorem inv_run (env : Env) (req : Request) (evs : List Event) :
    Inv env req (electronHandler env req evs) :=
  inv_foldl env req evs _ (inv_start env req)

/-! ## Validation (lines 108-119) -/

/-- After a `return`, with no armed timer, no turn does anything. -/
theorem step_idle (env : Env) (req : Request) (s : State) (ev : Event)
    (hpc : s.pc = .returned) (ht : s.timer ≠ .armed) : step env req s ev = s := by
  cases ev <;> simp [step, hpc, ht]

theorem foldl_idle (env : Env) (req : Request) (evs : List Event) (s : State)
    (hpc : s.pc = .returned) (ht : s.timer ≠ .armed) : evs.foldl (step env req) s = s := by
  induction evs with
  | nil => rfl
  | cons ev evs ih => rw [List.foldl_cons, step_idle env req s ev hpc ht, ih]

theorem statusCodes_respondError (env : Env) (req : Request) (s : State) (code : Nat)
    (status : String) (info : Option ErrorPageInfo) (hc : s.called = false) :
    statusCodes (respondError env req s code status info) = statusCodes s ++ [code] := by
  simp [statusCodes, respondError, respond_eq, hc, errorResponse_statusCode]

theorem truthy_eq_false_iff (x : String) : truthy x = false ↔ x = "" := by
  rw [String.ext_iff]
  cases x with
  | mk d => cases d <;> simp [truthy]

/-- C2. A request whose URL parses to an empty host, whatever its method and
headers and whatever happens afterwards, gets exactly one response, with status
code 404; no collaborator is called for it (no name resolution, no archive load)
and the deadline timer is never armed. -/
theorem empty_host_is_404 (env : Env) (req : Request) (evs : List Event)
    (h : (env.parseDatUrl req.url).host = "") :
    statusCodes (electronHandler env req evs) = [404] ∧ (electronHandler env req evs).effects = [] ∧
      (electronHandler env req evs).timer = .unset := by
  have hs : start env req = respondError env req
      { pc := .returned, urlp := env.parseDatUrl req.url } 404 "Archive Not Found"
      (some { title := some "Archive Not Found"
              errorDescription := some "Invalid URL"
              errorInfo := some (req.url ++ " is an invalid dat:// URL") }) := by
    simp [start, h, truthy]
  have hrun : electronHandler env req evs = start env req := by
    unfold electronHandler
    apply foldl_idle <;> rw [hs] <;> simp [respondError, respond_eq]
  rw [hrun, hs]
  refine ⟨?_, ?_, ?_⟩
  · rw [statusCodes_respondError _ _ _ _ _ _ rfl]; rfl
  · simp [respondError, respond_eq]
  · simp [respondError, respond_eq]

/-- C2, at a concrete request: a `POST` to `dat://`. -/
theorem empty_host_is_404_witness :
    (sampleEnv.parseDatUrl postNoHost.url).host = "" ∧
      statusCodes (electronHandler sampleEnv postNoHost [.timeout, .nameResolved (some "k")]) = [404] ∧
      (electronHandler sampleEnv postNoHost [.timeout, .nameResolved (some "k")]).effects = [] ∧
      (electronHandler sampleEnv postNoHost [.timeout, .nameResolved (some "k")]).timer = .unset :=
  ⟨by decide, empty_host_is_404 sampleEnv postNoHost _ (by decide)⟩

/-- C3, as stated, fails: a `POST` to a URL without a host is answered 404, not
405, because the host is tested before the method. -/
theorem method_not_supported_counterexample :
    postNoHost.method ≠ "GET" ∧ postNoHost.method ≠ "HEAD" ∧
      statusCodes (electronHandler sampleEnv postNoHost []) = [404] ∧
      statusCodes (electronHandler sampleEnv postNoHost []) ≠ [405] := by
  decide

/-- C3, amended. A request whose URL has a host and whose method is neither `GET`
nor `HEAD` gets exactly one response, with status code 405, and no collaborator
is called for it: no name resolution, no archive load, no timer. -/
theorem method_not_supported_is_405 (env : Env) (req : Request) (evs : List Event)
    (hhost : (env.parseDatUrl req.url).host ≠ "")
    (hget : req.method ≠ "GET") (hhead : req.method ≠ "HEAD") :
    statusCodes (electronHandler env req evs) = [405] ∧ (electronHandler env req evs).effects = [] ∧
      (electronHandler env req evs).timer = .unset := by
  have ht : truthy (env.parseDatUrl req.url).host = true := by
    cases hh : truthy (env.parseDatUrl req.url).host
    · exact absurd ((truthy_eq_false_iff _).1 hh) hhost
    · rfl
  have hs : start env req = respondError env req
      { pc := .returned, urlp := env.parseDatUrl req.url } 405 "Method Not Supported" none := by
    simp [start, ht, hget, hhead]
  have hrun : electronHandler env req evs = start env req := by
    unfold electronHandler
    apply foldl_idle <;> rw [hs] <;> simp [respondError, respond_eq]
  rw [hrun, hs]
  refine ⟨?_, ?_, ?_⟩
  · rw [statusCodes_respondError _ _ _ _ _ _ rfl]; rfl
  · simp [respondError, respond_eq]
  · simp [respondError, respond_eq]

/-- C3 amended, at a concrete request: a `DELETE` of `dat://example.com/docs`. -/
theorem method_not_supported_is_405_witness :
    (sampleEnv.parseDatUrl deleteDocs.url).host ≠ "" ∧ deleteDocs.method ≠ "GET" ∧
      deleteDocs.method ≠ "HEAD" ∧
      statusCodes (electronHandler sampleEnv deleteDocs [.timeout]) = [405] ∧
      (electronHandler sampleEnv deleteDocs [.timeout]).effects = [] ∧
      (electronHandler sampleEnv deleteDocs [.timeout]).timer = .unset :=
  ⟨by decide, by decide, by decide,
    method_not_supported_is_405 sampleEnv deleteDocs _ (by decide) (by decide) (by decide)⟩

/-! ## The deadline (lines 132-149) -/

theorem called_of_no_hostCalls {s : State} (h : OnceInv s) (hno : s.hostCalls = []) :
    s.called = false := by
  rcases h with ⟨hc, _⟩ | ⟨_, r, hr⟩
  · exact hc
  · rw [hr] at hno; cases hno

theorem statusCodes_onTimeout (env : Env) (req : Request) (s : State)
    (hc : s.called = false) (hno : s.hostCalls = []) :
    statusCodes (onTimeout env req s) = [504] := by
  unfold onTimeout
  dsimp only
  rw [statusCodes_respondError]
  · split <;> simp [statusCodes, emit, hno]
  · split <;> simp [emit, hc]

/-- C4, as stated, fails: while the name resolution is pending no timer is armed,
so a request that passed validation and whose resolver never answers gets no
response when the thirty seconds elapse. -/
theorem deadline_counterexample :
    (electronHandler sampleEnv getDocs []).pc = .resolvingName ∧
      (electronHandler sampleEnv getDocs []).effects = [.resolveName "example.com"] ∧
      (electronHandler sampleEnv getDocs [.timeout]).timer = .unset ∧
      (electronHandler sampleEnv getDocs [.timeout]).hostCalls = [] := by
  decide

/-- C4, amended. Once the name has been resolved, in whichever later stage the
handler is waiting: if no response has been emitted yet, the timer is armed, and
when it fires exactly one response is emitted, with status code 504, whatever
happens afterwards; a file read stream that is open is destroyed by that turn. -/
theorem deadline_after_name_resolution (env : Env) (req : Request) (evs more : List Event)
    (hpc : (electronHandler env req evs).pc ≠ .resolvingName)
    (hno : (electronHandler env req evs).hostCalls = []) :
    (electronHandler env req evs).timer = .armed ∧
      statusCodes (electronHandler env req (evs ++ .timeout :: more)) = [504] ∧
      ((electronHandler env req evs).fileReadStream = true →
        (electronHandler env req (evs ++ [.timeout])).effects =
            (electronHandler env req evs).effects ++ [.timedOut, .destroyFileReadStream] ∧
          (electronHandler env req (evs ++ [.timeout])).fileReadStream = false) := by
  have hinv := inv_run env req evs
  have honce := onceInv_run env req evs
  have hc := called_of_no_hostCalls honce hno
  have ht := hinv.armed hc hpc
  have hstep : step env req (electronHandler env req evs) .timeout = onTimeout env req (electronHandler env req evs) := by
    simp [step, ht]
  have h504 := statusCodes_onTimeout env req _ hc hno
  refine ⟨ht, ?_, ?_⟩
  · rw [run_append, List.foldl_cons, hstep]
    have hg := guarded_foldl env req more (onTimeout env req (electronHandler env req evs))
    have hi : OnceInv (onTimeout env req (electronHandler env req evs)) :=
      onceInv_of_guarded honce (guarded_onTimeout env req _)
    have hne : (onTimeout env req (electronHandler env req evs)).hostCalls ≠ [] := by
      intro h0
      simp [statusCodes, h0] at h504
    unfold statusCodes at *
    rw [hostCalls_of_guarded hi hne hg, h504]
  · intro hfs
    rw [run_append]
    simp [hstep, onTimeout, hfs, emit, respondError, respond_eq]

/-- C4 amended, at a concrete run: the timer fires while the read stream is open. -/
theorem deadline_after_name_resolution_witness :
    (electronHandler sampleEnv getDocs (upToPath "website" ++ [.pathResolved (some (some docsFile))])).pc
        ≠ .resolvingName ∧
      (electronHandler sampleEnv getDocs
        (upToPath "website" ++ [.pathResolved (some (some docsFile))])).hostCalls = [] ∧
      (electronHandler sampleEnv getDocs
        (upToPath "website" ++ [.pathResolved (some (some docsFile))])).fileReadStream = true ∧
      statusCodes (electronHandler sampleEnv getDocs
        ((upToPath "website" ++ [.pathResolved (some (some docsFile))])
          ++ .timeout :: [.sniffed "text/html", .streamEnd])) = [504] := by
  have h := deadline_after_name_resolution sampleEnv getDocs
    (upToPath "website" ++ [.pathResolved (some (some docsFile))])
    [.sniffed "text/html", .streamEnd] (by decide) (by decide)
  exact ⟨by decide, by decide, by decide, h.2.1⟩

/-- C5, at failing inputs: the handler shell, the inline markdown and the
read-error 500 are emitted with the timer still armed (no `cleanup()` on these
three paths), and the timeout callback then runs after the response. -/
theorem response_with_timer_armed :
    (statusCodes (electronHandler sampleEnv getDocsHtml (upToPath "files")) = [200] ∧
        (electronHandler sampleEnv getDocsHtml (upToPath "files")).timer = .armed ∧
        Effect.timedOut ∈ (electronHandler sampleEnv getDocsHtml (upToPath "files" ++ [.timeout])).effects) ∧
      (statusCodes (electronHandler sampleEnv getDocsHtml (upToPath "website" ++
          [.pathResolved (some (some readmeFile)), .fileRead (some "# hi")])) = [200] ∧
        (electronHandler sampleEnv getDocsHtml (upToPath "website" ++
          [.pathResolved (some (some readmeFile)), .fileRead (some "# hi")])).timer = .armed) ∧
      (statusCodes (electronHandler sampleEnv getDocs (upToPath "website" ++
          [.pathResolved (some (some docsFile)), .streamError])) = [500] ∧
        (electronHandler sampleEnv getDocs (upToPath "website" ++
          [.pathResolved (some (some docsFile)), .streamError])).timer = .armed) := by
  decide

/-- C6, at failing inputs: when `decodeURIComponent` throws on the path, when the
default-handler lookup rejects, when the path resolution rejects and when
`readFile` rejects, the handler emits no response at the point of failure; the
exception leaves the function, and the only response is the 504 of the timer. -/
theorem failure_without_response :
    ((electronHandler sampleEnv getBadEscape
          [.nameResolved (some "key"), .archiveLoaded (some "archive")]).pc = .threw ∧
        (electronHandler sampleEnv getBadEscape
          [.nameResolved (some "key"), .archiveLoaded (some "archive")]).hostCalls = [] ∧
        statusCodes (electronHandler sampleEnv getBadEscape
          [.nameResolved (some "key"), .archiveLoaded (some "archive"), .timeout]) = [504]) ∧
      ((electronHandler sampleEnv getDocs
          [.nameResolved (some "key"), .archiveLoaded (some "archive"), .checkedOut (some "fs"),
           .manifestRead (some none), .defaultHandler none]).pc = .threw ∧
        (electronHandler sampleEnv getDocs
          [.nameResolved (some "key"), .archiveLoaded (some "archive"), .checkedOut (some "fs"),
           .manifestRead (some none), .defaultHandler none]).hostCalls = []) ∧
      ((electronHandler sampleEnv getDocs (upToPath "website" ++ [.pathResolved none])).pc = .threw ∧
        (electronHandler sampleEnv getDocs (upToPath "website" ++ [.pathResolved none])).hostCalls = []) ∧
      ((electronHandler sampleEnv getDocsHtml (upToPath "website" ++
          [.pathResolved (some (some readmeFile)), .fileRead none])).pc = .threw ∧
        (electronHandler sampleEnv getDocsHtml (upToPath "website" ++
          [.pathResolved (some (some readmeFile)), .fileRead none])).hostCalls = []) := by
  decide

/-! ## Ranges (lines 295-308 and 333-363) -/

theorem getHeader_setHeader_same (h : Headers) (k v : String) :
    getHeader (setHeader h k v) k = some v := by
  induction h with
  | nil => simp [setHeader, getHeader]
  | cons kv t ih =>
    obtain ⟨k', v'⟩ := kv
    by_cases hk : k' = k <;> simp [setHeader, getHeader, hk, ih]

theorem getHeader_setHeader_ne (h : Headers) (k k' v : String) (hne : k ≠ k') :
    getHeader (setHeader h k v) k' = getHeader h k' := by
  induction h with
  | nil => simp [setHeader, getHeader, hne]
  | cons kv t ih =>
    obtain ⟨k₀, v₀⟩ := kv
    by_cases hk : k₀ = k
    · subst hk
      simp [setHeader, getHeader, hne]
    · by_cases hk' : k₀ = k'
      · subst hk'
        simp [setHeader, getHeader, hk]
      · simp [setHeader, getHeader, hk, hk', ih]

/-- The state in which a file entry with a parsed byte range starts streaming. -/
theorem serveEntry_range (env : Env) (req : Request) (s : State) (e : Entry)
    (h : String) (first : ByteRange) (rest : List ByteRange)
    (hh : orElseStr req.headers.Range req.headers.range = some h)
    (ht : truthy h = true)
    (hp : env.parseRange e.size h = .ranges "bytes" first rest) :
    serveEntry env req s e =
      { s with
        pc := .streaming
        effects := s.effects ++ [.createReadStream e.path (.first first)]
        range := .first first
        statusCode := 206
        headers := assignHeaders
          (setHeader (setHeader (setHeader s.headers "Accept-Ranges" "bytes") "Content-Range"
            ("bytes " ++ toString first.start ++ "-" ++ toString first.stop ++ "/"
              ++ toString e.size))
            "Content-Length" ("" ++ toString ((first.stop : Int) - (first.start : Int) + 1)))
          [("Content-Security-Policy", s.cspHeader),
           ("Access-Control-Allow-Origin", "*"),
           ("Cache-Control", "no-cache")]
        fileReadStream := true
        endListener := true
        errorListener := true } := by
  simp [serveEntry, openEntry, commonHeaders, rangeHeaders, readRange, bytesRange, hh, ht, hp,
    emit]

/-- What the sniffer callback hands to the host when nothing was sent before. -/
theorem hostCalls_onSniffed (req : Request) (s : State) (m : String)
    (hc : s.called = false) (hno : s.hostCalls = []) :
    (onSniffed req s m).hostCalls =
      [{ statusCode := if req.method = "HEAD" then 204 else s.statusCode
         headers := some (assignHeaders s.headers
           [("Content-Type",
             if !s.canExecuteHTML && includes m "html" then "text/plain" else m)])
         data := some (if req.method = "HEAD" then .text ""
           else .dataStream ((s.entry.map Entry.path).getD "") s.range) }] := by
  unfold onSniffed
  by_cases hm : req.method = "HEAD" <;> simp [hm, respond_eq, cleanup, emit, hc, hno]

/-- C7, as stated, fails: a `HEAD` request with a valid `Range` header is
answered 204, not 206 (line 357 tests the method before the status is used). -/
theorem range_head_counterexample :
    sampleEnv.parseRange docsFile.size "bytes=0-99" = .ranges "bytes" ⟨0, 99⟩ [] ∧
      statusCodes (electronHandler sampleEnv headRange
        (upToPath "website" ++ [.pathResolved (some (some docsFile)), .sniffed "text/plain"]))
        = [204] := by
  decide

/-- C7, amended. For a request whose path resolves to a file entry and whose
`Range` (or `range`) header parses, against the size of the entry, into a list
of byte ranges: when the sniffer callback delivers the response, its
`Content-Range` is `bytes <start>-<end>/<size>` and its `Content-Length` is the
decimal string of `end - start + 1`, for the first range of the list whatever
the later ones are; its status code is 206 when the method is not `HEAD`, and
204 when it is. -/
theorem range_response (env : Env) (req : Request) (evs : List Event) (e : Entry)
    (h mimeType : String) (first : ByteRange) (rest : List ByteRange)
    (hpc : (electronHandler env req evs).pc = .resolvingPath)
    (hno : (electronHandler env req evs).hostCalls = [])
    (hfile : e.isDirectory = false)
    (hh : orElseStr req.headers.Range req.headers.range = some h)
    (ht : truthy h = true)
    (hp : env.parseRange e.size h = .ranges "bytes" first rest) :
    ∃ r, (electronHandler env req (evs ++ [.pathResolved (some (some e)), .sniffed mimeType])).hostCalls
          = [r] ∧
      r.statusCode = (if req.method = "HEAD" then 204 else 206) ∧
      responseHeader r "Content-Range" =
        some ("bytes " ++ toString first.start ++ "-" ++ toString first.stop ++ "/"
          ++ toString e.size) ∧
      responseHeader r "Content-Length" =
        some (toString ((first.stop : Int) - (first.start : Int) + 1)) := by
  have hinv := inv_run env req evs
  have hc := called_of_no_hostCalls (onceInv_run env req evs) hno
  obtain ⟨hhd, hsc⟩ := hinv.fresh hpc
  have h1 : step env req (electronHandler env req evs) (.pathResolved (some (some e))) =
      serveEntry env req { electronHandler env req evs with entry := some e } e := by
    simp [step, hpc, onPathResolved, hfile]
  obtain ⟨S, hS, hSpc, hSc, hSno, hSsc, hShd⟩ :
      ∃ S, step env req (electronHandler env req evs) (.pathResolved (some (some e))) = S ∧
        S.pc = .streaming ∧ S.called = false ∧ S.hostCalls = [] ∧ S.statusCode = 206 ∧
        S.headers =
          [("Accept-Ranges", "bytes"),
           ("Content-Range", "bytes " ++ toString first.start ++ "-" ++ toString first.stop
              ++ "/" ++ toString e.size),
           ("Content-Length", toString ((first.stop : Int) - (first.start : Int) + 1)),
           ("Content-Security-Policy", (electronHandler env req evs).cspHeader),
           ("Access-Control-Allow-Origin", "*"),
           ("Cache-Control", "no-cache")] :=
    ⟨_, h1.trans (serveEntry_range env req _ e h first rest hh ht hp), rfl, hc, hno, rfl,
      by simp [hhd, assignHeaders, setHeader]⟩
  have h2 : step env req S (.sniffed mimeType) = onSniffed req S mimeType := by
    simp [step, hSpc]
  rw [run_append, List.foldl_cons, List.foldl_cons, List.foldl_nil, hS, h2]
  refine ⟨_, hostCalls_onSniffed req S mimeType hSc hSno, ?_, ?_, ?_⟩
  · simp [hSsc]
  · simp [responseHeader, hShd, assignHeaders, setHeader, getHeader]
  · simp [responseHeader, hShd, assignHeaders, setHeader, getHeader]

/-- C7 amended, at the example of the specification: `bytes=0-99` on an entry of
500 bytes, requested with `GET`. -/
theorem range_response_witness :
    ∃ r, (electronHandler sampleEnv getRange (upToPath "website" ++
            [.pathResolved (some (some docsFile)), .sniffed "text/plain"])).hostCalls = [r] ∧
      r.statusCode = 206 ∧
      responseHeader r "Content-Range" = some "bytes 0-99/500" ∧
      responseHeader r "Content-Length" = some "100" := by
  obtain ⟨r, h1, h2, h3, h4⟩ := range_response sampleEnv getRange (upToPath "website") docsFile
    "bytes=0-99" "text/plain" ⟨0, 99⟩ [] (by decide) (by decide) (by decide) (by decide)
    (by decide) (by decide)
  exact ⟨r, h1, h2, h3, h4⟩

/-! ## Directories (lines 160-164 and 247-274) -/

/-- The trailing-slash flag at the path resolution is that of the decoded path
with its query cut off. -/
theorem hasTrailingSlash_eq (env : Env) (req : Request) (evs : List Event) (p : String)
    (hpc : (electronHandler env req evs).pc = .resolvingPath)
    (hp : requestedPath env (env.parseDatUrl req.url) = some p) :
    (electronHandler env req evs).hasTrailingSlash = endsWith p "/" := by
  have hinv := inv_run env req evs
  have h := hinv.path (by rw [hpc]; rfl)
  rw [hinv.urlp, hp] at h
  rw [hinv.slash, ← Option.some.inj h]

/-- C8. For a request whose path resolves to a directory entry and whose
requested path (decoded, query cut off) has no trailing slash, the response has
status code 303 and its `Location` is `dat://` + host + (`+` + version, when a
version was given) + pathname + `/` + search. -/
theorem directory_redirect (env : Env) (req : Request) (evs : List Event) (e : Entry)
    (p : String)
    (hpc : (electronHandler env req evs).pc = .resolvingPath)
    (hno : (electronHandler env req evs).hostCalls = [])
    (hdir : e.isDirectory = true)
    (hp : requestedPath env (env.parseDatUrl req.url) = some p)
    (hslash : endsWith p "/" = false) :
    (electronHandler env req (evs ++ [.pathResolved (some (some e))])).hostCalls =
      [{ statusCode := 303
         headers := some
           [("Location", "dat://" ++ (env.parseDatUrl req.url).host
              ++ (if (env.parseDatUrl req.url).version = "" then ""
                  else "+" ++ (env.parseDatUrl req.url).version)
              ++ (env.parseDatUrl req.url).pathname ++ "/" ++ (env.parseDatUrl req.url).search)]
         data := some (.text "") }] := by
  have hinv := inv_run env req evs
  have hc := called_of_no_hostCalls (onceInv_run env req evs) hno
  have hts := hasTrailingSlash_eq env req evs p hpc hp
  rw [hslash] at hts
  have hu := hinv.urlp
  rw [run_append, List.foldl_cons, List.foldl_nil]
  by_cases hv : (env.parseDatUrl req.url).version = ""
  · have hte : truthy "" = false := by decide
    simp [step, hpc, onPathResolved, hdir, cleanup, emit, respond_eq, hc, hno, hts, hu, hv, hte]
  · have htv : truthy (env.parseDatUrl req.url).version = true := by
      cases ht : truthy (env.parseDatUrl req.url).version
      · exact absurd ((truthy_eq_false_iff _).1 ht) hv
      · rfl
    simp [step, hpc, onPathResolved, hdir, cleanup, emit, respond_eq, hc, hno, hts, hu, htv, hv]

/-- C8, at a concrete request: `dat://example.com+5/docs?x=1`. -/
theorem directory_redirect_witness :
    (electronHandler sampleEnv getVersioned
        (upToPath "website" ++ [.pathResolved (some (some docsDir))])).hostCalls =
      [{ statusCode := 303
         headers := some [("Location", "dat://example.com+5/docs/?x=1")]
         data := some (.text "") }] :=
  directory_redirect sampleEnv getVersioned (upToPath "website") docsDir "/docs"
    (by decide) (by decide) (by decide) (by decide) (by decide)

/-- C9, as stated, fails: the flag is computed from the decoded path cut at its
first `?`, not from the pathname.  The pathname `/a%3Fb/` ends with `/`, its
decoded path `/a?b/` is cut to `/a`, and a directory entry is answered with the
303 redirect; the pathname `/docs%2F` does not end with `/`, its decoded path
`/docs/` does, and the flag is true. -/
theorem trailing_slash_counterexample :
    (endsWith (sampleEnv.parseDatUrl getEncodedQuery.url).pathname "/" = true ∧
        requestedPath sampleEnv (sampleEnv.parseDatUrl getEncodedQuery.url) = some "/a" ∧
        (electronHandler sampleEnv getEncodedQuery (upToPath "website")).hasTrailingSlash = false ∧
        statusCodes (electronHandler sampleEnv getEncodedQuery
          (upToPath "website" ++ [.pathResolved (some (some docsDir))])) = [303]) ∧
      (endsWith (sampleEnv.parseDatUrl getEncodedSlash.url).pathname "/" = false ∧
        (electronHandler sampleEnv getEncodedSlash (upToPath "website")).hasTrailingSlash = true) := by
  decide

/-- C9, amended. For a request whose path resolves to a directory entry and
whose decoded path, cut at its first `?`, ends with `/`: the trailing-slash flag
is true, the only response is the 404, and no redirect is issued, whatever
happens afterwards. -/
theorem directory_with_slash_is_404 (env : Env) (req : Request) (evs more : List Event)
    (e : Entry) (p : String)
    (hpc : (electronHandler env req evs).pc = .resolvingPath)
    (hno : (electronHandler env req evs).hostCalls = [])
    (hdir : e.isDirectory = true)
    (hp : requestedPath env (env.parseDatUrl req.url) = some p)
    (hslash : endsWith p "/" = true) :
    (electronHandler env req evs).hasTrailingSlash = true ∧
      statusCodes (electronHandler env req (evs ++ .pathResolved (some (some e)) :: more)) = [404] := by
  have hc := called_of_no_hostCalls (onceInv_run env req evs) hno
  have hts := hasTrailingSlash_eq env req evs p hpc hp
  rw [hslash] at hts
  refine ⟨hts, ?_⟩
  have h1 : statusCodes (electronHandler env req (evs ++ [.pathResolved (some (some e))])) = [404] := by
    rw [run_append, List.foldl_cons, List.foldl_nil]
    simp [step, hpc, onPathResolved, hdir, notFound, cleanup, emit, respondError, respond_eq,
      hc, hno, hts, statusCodes, errorResponse_statusCode]
  have h2 := hostCalls_run_append env req (evs ++ [.pathResolved (some (some e))]) more
    (by intro h0; simp [statusCodes, h0] at h1)
  rw [List.append_assoc, List.singleton_append] at h2
  unfold statusCodes at *
  rw [h2, h1]

/-- C9 amended, at a concrete request: the directory `dat://example.com/docs/`. -/
theorem directory_with_slash_is_404_witness :
    (electronHandler sampleEnv getDocsSlash (upToPath "website")).hasTrailingSlash = true ∧
      statusCodes (electronHandler sampleEnv getDocsSlash
        (upToPath "website" ++ .pathResolved (some (some docsDir)) :: [.timeout])) = [404] :=
  directory_with_slash_is_404 sampleEnv getDocsSlash (upToPath "website") [.timeout] docsDir
    "/docs/" (by decide) (by decide) (by decide) (by decide) (by decide)

/-! ## The sniffed type (lines 333-346) -/

/-- C10. For a request that has reached the streaming stage with no response
emitted yet, the response that the sniffer callback emits has as its
`Content-Type` the sniffed type, replaced by exactly `text/plain` when the handler
is not `website` and the sniffed type contains `html`; so on an archive whose
handler is not `website` that `Content-Type` never contains `html`. -/
theorem sniffed_content_type (env : Env) (req : Request) (evs : List Event) (m : String)
    (hpc : (electronHandler env req evs).pc = .streaming)
    (hno : (electronHandler env req evs).hostCalls = []) :
    ∃ r, (electronHandler env req (evs ++ [.sniffed m])).hostCalls = [r] ∧
      responseHeader r "Content-Type" =
        some (if (electronHandler env req evs).handler ≠ "website" ∧ includes m "html" = true
          then "text/plain" else m) ∧
      ((electronHandler env req evs).handler ≠ "website" →
        ∀ ct, responseHeader r "Content-Type" = some ct → includes ct "html" = false) := by
  have hinv := inv_run env req evs
  have hc := called_of_no_hostCalls (onceInv_run env req evs) hno
  have hce := hinv.canExec
  have hstep : step env req (electronHandler env req evs) (.sniffed m) = onSniffed req (electronHandler env req evs) m := by
    simp [step, hpc]
  have hplain : includes "text/plain" "html" = false := by decide
  rw [run_append, List.foldl_cons, List.foldl_nil, hstep]
  refine ⟨_, hostCalls_onSniffed req _ m hc hno, ?_, ?_⟩
  · simp only [responseHeader, assignHeaders, List.foldl, Option.bind, getHeader_setHeader_same]
    by_cases hw : (electronHandler env req evs).handler = "website" <;>
      by_cases hi : includes m "html" = true <;> simp [hce, hw, hi]
  · intro hw ct
    simp only [responseHeader, assignHeaders, List.foldl, Option.bind, getHeader_setHeader_same]
    by_cases hi : includes m "html" = true
    · simp [hce, hw, hi]
      intro h
      rw [← h]
      exact hplain
    · simp [hce, hw, hi]
      intro h
      rw [← h]
      simpa using hi

/-- C10, at a concrete run: an entry sniffed as `text/html` on an archive whose
handler is `files`. -/
theorem sniffed_content_type_witness :
    ∃ r, (electronHandler sampleEnv getDocs ((upToPath "files" ++ [.pathResolved (some (some docsFile))])
            ++ [.sniffed "text/html"])).hostCalls = [r] ∧
      responseHeader r "Content-Type" = some "text/plain" := by
  obtain ⟨r, h1, h2, _⟩ := sniffed_content_type sampleEnv getDocs
    (upToPath "files" ++ [.pathResolved (some (some docsFile))]) "text/html"
    (by decide) (by decide)
  exact ⟨r, h1, h2⟩

/-! ## Facts about the stages -/

/-- The facts of `StageInv` speak of the early stages and of the path resolution only. -/
theorem stage_of_late (env : Env) (req : Request) (s : State)
    (h₁ : s.pc ≠ .resolvingPath) (h₂ : s.pc.early = false) : StageInv env req s := by
  constructor <;> simp_all

theorem stage_start (env : Env) (req : Request) : StageInv env req (start env req) := by
  unfold start
  dsimp only
  split
  · apply stage_of_late <;> simp [respondError, respond_eq, Pc.early]
  · split
    · apply stage_of_late <;> simp [respondError, respond_eq, Pc.early]
    · constructor <;> simp [emit, Pc.early, isRead]

theorem stage_onNameResolved (env : Env) (req : Request) (s : State) (r : Option String)
    (h : StageInv env req s) (hpc : s.pc = .resolvingName) :
    StageInv env req (onNameResolved env req s r) := by
  obtain ⟨h1, h2, h3, h4⟩ := h
  cases r <;> constructor <;>
    simp_all [onNameResolved, respondError, respond_eq, emit, Pc.early, isRead]

theorem stage_onTimeout (env : Env) (req : Request) (s : State)
    (h : StageInv env req s) : StageInv env req (onTimeout env req s) := by
  obtain ⟨h1, h2, h3, h4⟩ := h
  unfold onTimeout
  dsimp only
  split <;> constructor <;> simp_all [respondError, respond_eq, emit, isRead]

theorem stage_onArchiveLoaded (env : Env) (req : Request) (s : State) (r : Option String)
    (h : StageInv env req s) (hpc : s.pc = .loadingArchive) :
    StageInv env req (onArchiveLoaded env req s r) := by
  obtain ⟨h1, h2, h3, h4⟩ := h
  cases r with
  | none =>
    constructor <;>
      simp_all [onArchiveLoaded, respondError, respond_eq, cleanup, emit, Pc.early]
  | some a =>
    unfold onArchiveLoaded
    dsimp only
    split <;> constructor <;> simp_all [emit, Pc.early, isRead]

theorem stage_onCheckedOut (env : Env) (req : Request) (s : State) (r : Option String)
    (h : StageInv env req s) (hpc : s.pc = .checkingOut) :
    StageInv env req (onCheckedOut env req s r) := by
  obtain ⟨h1, h2, h3, h4⟩ := h
  cases r <;> constructor <;>
    simp_all [onCheckedOut, respondError, respond_eq, cleanup, emit, Pc.early, isRead]

theorem serveZip_pc (env : Env) (req : Request) (s : State) :
    (serveZip env req s).pc = .returned := by
  unfold serveZip
  dsimp only
  split <;> rfl

/-- Lines 182-245 with the policy written as `manifestCsp`, for a state that
still holds the default policy. -/
theorem serve_eq (env : Env) (req : Request) (s : State) (handler : String)
    (hcsp : s.cspHeader = "default-src * 'unsafe-inline'") :
    serve env req s handler =
      if servesShell env req handler = true then
        { respond { s with handler := handler, canExecuteHTML := decide (handler = "website") }
            { statusCode := 200
              headers := some [("Content-Type", "text/html")]
              data := some (.text (shellDocument env handler)) }
          with pc := .returned }
      else if s.urlp.downloadAs = some "zip" then
        serveZip env req
          { s with handler := handler, canExecuteHTML := decide (handler = "website")
                   cspHeader := manifestCsp s.manifest }
      else
        { s with handler := handler, canExecuteHTML := decide (handler = "website")
                 cspHeader := manifestCsp s.manifest, statusCode := 200, headers := []
                 effects := s.effects ++ [.resolvePath req.headers.Accept]
                 pc := .resolvingPath } := by
  have key : (match s.manifest with
      | some m =>
        match m.content_security_policy with
        | .str c =>
          if truthy c then
            { s with handler := handler, canExecuteHTML := decide (handler = "website")
                     cspHeader := c }
          else { s with handler := handler, canExecuteHTML := decide (handler = "website") }
        | _ => { s with handler := handler, canExecuteHTML := decide (handler = "website") }
      | none => { s with handler := handler, canExecuteHTML := decide (handler = "website") })
      = { s with handler := handler, canExecuteHTML := decide (handler = "website")
                 cspHeader := manifestCsp s.manifest } := by
    cases hm : s.manifest with
    | none => simp [manifestCsp, hcsp.symm]
    | some m =>
      cases hf : m.content_security_policy with
      | absent => simp [manifestCsp, hf, hcsp.symm]
      | other b => simp [manifestCsp, hf, hcsp.symm]
      | str c => by_cases ht : truthy c = true <;> simp [manifestCsp, hf, ht, hcsp.symm]
  unfold serve servesShell
  dsimp only
  split
  · rfl
  · rw [key]
    split <;> simp [emit]

theorem stage_serve (env : Env) (req : Request) (s : State) (handler : String)
    (h : StageInv env req s) (hpc : s.pc.early = true) :
    StageInv env req (serve env req s handler) := by
  obtain ⟨h1, h2, h3, h4⟩ := h
  rw [serve_eq env req s handler (h3 hpc)]
  split
  · apply stage_of_late <;> simp [respond_eq, Pc.early]
  · split
    · apply stage_of_late <;> simp [serveZip_pc, Pc.early]
    · rename_i hshell _
      constructor <;> simp_all [Pc.early, servesShell]
      by_cases hw : handler = "website" <;> simp_all

theorem stage_onManifestRead (env : Env) (req : Request) (s : State)
    (r : Option (Option Manifest)) (h : StageInv env req s) (hpc : s.pc = .readingManifest) :
    StageInv env req (onManifestRead env req s r) := by
  have hm : ∀ m : Option Manifest, StageInv env req { s with manifest := m } := by
    intro m
    obtain ⟨h1, h2, h3, h4⟩ := h
    constructor <;> simp_all
  unfold onManifestRead
  dsimp only
  split
  · exact stage_serve env req _ _ (hm _) (by simp [hpc, Pc.early])
  · obtain ⟨h1, h2, h3, h4⟩ := h
    constructor <;> simp_all [emit, Pc.early, isRead]

theorem stage_onDefaultHandler (env : Env) (req : Request) (s : State) (r : Option String)
    (h : StageInv env req s) (hpc : s.pc = .lookingUpHandler) :
    StageInv env req (onDefaultHandler env req s r) := by
  cases r with
  | none => apply stage_of_late <;> simp [onDefaultHandler, Pc.early]
  | some handler => exact stage_serve env req s handler h (by simp [hpc, Pc.early])

theorem notFound_pc (env : Env) (req : Request) (s : State) :
    (notFound env req s).pc = .returned := rfl

theorem serveEntry_pc (env : Env) (req : Request) (s : State) (e : Entry) :
    (serveEntry env req s e).pc = .readingFile ∨ (serveEntry env req s e).pc = .streaming := by
  unfold serveEntry openEntry
  split
  · exact Or.inl rfl
  · exact Or.inr rfl

theorem stage_onPathResolved (env : Env) (req : Request) (s : State)
    (r : Option (Option Entry)) : StageInv env req (onPathResolved env req s r) := by
  unfold onPathResolved
  split
  · apply stage_of_late <;> simp [Pc.early]
  · apply stage_of_late <;> simp [notFound_pc, Pc.early]
  · dsimp only
    split
    · split
      · apply stage_of_late <;> simp [Pc.early]
      · apply stage_of_late <;> simp [notFound_pc, Pc.early]
    · rename_i e _
      rcases serveEntry_pc env req { s with entry := some e } e with h | h <;>
        apply stage_of_late <;> simp [h, Pc.early]

theorem stage_onFileRead (env : Env) (req : Request) (s : State) (r : Option String) :
    StageInv env req (onFileRead env s r) := by
  cases r <;> apply stage_of_late <;> simp [onFileRead, Pc.early]

theorem stage_onSniffed (env : Env) (req : Request) (s : State) (m : String)
    (hpc : s.pc = .streaming) : StageInv env req (onSniffed req s m) := by
  unfold onSniffed
  dsimp only
  split <;> apply stage_of_late <;> simp [respond_eq, cleanup, emit, hpc, Pc.early]

theorem stage_onStreamEnd (env : Env) (req : Request) (s : State)
    (hpc : s.pc = .streaming) : StageInv env req (onStreamEnd s) := by
  unfold onStreamEnd
  dsimp only
  split <;> apply stage_of_late <;> simp [respond_eq, cleanup, emit, hpc, Pc.early]

theorem stage_onStreamError (env : Env) (req : Request) (s : State)
    (hpc : s.pc = .streaming) : StageInv env req (onStreamError env req s) := by
  unfold onStreamError
  dsimp only
  split <;> apply stage_of_late <;> simp [respondError, respond_eq, emit, hpc, Pc.early]

/-- Every turn of the event loop keeps the facts of `StageInv`. -/
theorem stage_step (env : Env) (req : Request) (s : State) (ev : Event)
    (h : StageInv env req s) : StageInv env req (step env req s ev) := by
  cases ev <;> unfold step <;> dsimp only <;> split
  all_goals first
    | exact h
    | exact stage_onTimeout _ _ _ h
    | exact stage_onNameResolved _ _ _ _ h (by assumption)
    | exact stage_onArchiveLoaded _ _ _ _ h (by assumption)
    | exact stage_onCheckedOut _ _ _ _ h (by assumption)
    | exact stage_onManifestRead _ _ _ _ h (by assumption)
    | exact stage_onDefaultHandler _ _ _ _ h (by assumption)
    | exact stage_onPathResolved _ _ _ _
    | exact stage_onFileRead _ _ _ _
    | exact stage_onSniffed _ _ _ _ (by assumption)
    | exact stage_onStreamEnd _ _ _ (And.left (by assumption))
    | exact stage_onStreamError _ _ _ (And.left (by assumption))

theorem stage_foldl (env : Env) (req : Request) (evs : List Event) (s : State)
    (h : StageInv env req s) : StageInv env req (evs.foldl (step env req) s) := by
  induction evs generalizing s with
  | nil => exact h
  | cons ev evs ih => exact ih _ (stage_step env req s ev h)

theorem stage_run (env : Env) (req : Request) (evs : List Event) :
    StageInv env req (electronHandler env req evs) :=
  stage_foldl env req evs _ (stage_start env req)

/-! ## File entries (lines 295-331) -/

theorem step_pathResolved_file (env : Env) (req : Request) (s : State) (e : Entry)
    (hpc : s.pc = .resolvingPath) (hfile : e.isDirectory = false) :
    step env req s (.pathResolved (some (some e))) =
      openEntry env req
        (commonHeaders (rangeHeaders { s with entry := some e } e (readRange env req e))) e := by
  simp [step, hpc, onPathResolved, hfile, serveEntry]

/-- The state after lines 295-314: only `range`, `statusCode` and `headers` are
written, and the headers hold `Accept-Ranges`, the policy and the CORS header. -/
theorem composed_frame (s : State) (e : Entry) (R : RangeVar) (hhd : s.headers = []) :
    ∃ sc hd, commonHeaders (rangeHeaders s e R) =
        { s with
          range := (match bytesRange R with
            | some r => .first r
            | none => R)
          statusCode := sc
          headers := hd } ∧
      getHeader hd "Accept-Ranges" = some "bytes" ∧
      getHeader hd "Content-Security-Policy" = some s.cspHeader ∧
      getHeader hd "Access-Control-Allow-Origin" = some "*" ∧
      (bytesRange R = none → sc = s.statusCode ∧
        getHeader hd "Content-Range" = none ∧
        getHeader hd "Content-Length" = if e.size ≠ 0 then some (toString e.size) else none) := by
  unfold commonHeaders rangeHeaders
  dsimp only
  cases hb : bytesRange R with
  | some r =>
    refine ⟨_, _, rfl, ?_, ?_, ?_, ?_⟩ <;> simp [hhd, assignHeaders, setHeader, getHeader]
  | none =>
    by_cases hz : e.size = 0
    · refine ⟨_, _, rfl, ?_, ?_, ?_, ?_⟩ <;> simp [hhd, hz, assignHeaders, setHeader, getHeader]
    · refine ⟨_, _, rfl, ?_, ?_, ?_, ?_⟩ <;> simp [hhd, hz, assignHeaders, setHeader, getHeader]

theorem openEntry_inline (env : Env) (req : Request) (t : State) (e : Entry)
    (h : (decide (t.range = .noHeader) && endsWith e.path ".md"
      && env.acceptHeaderWantsHTML req.headers.Accept) = true) :
    openEntry env req t e =
      { t with pc := .readingFile, effects := t.effects ++ [.readFile e.path] } := by
  unfold openEntry
  rw [if_pos h]
  rfl

theorem openEntry_stream (env : Env) (req : Request) (t : State) (e : Entry)
    (h : (decide (t.range = .noHeader) && endsWith e.path ".md"
      && env.acceptHeaderWantsHTML req.headers.Accept) = false) :
    openEntry env req t e =
      { t with pc := .streaming, effects := t.effects ++ [.createReadStream e.path t.range]
               fileReadStream := true, endListener := true, errorListener := true } := by
  unfold openEntry
  rw [if_neg (by simp [h])]
  rfl

/-- What `onFileRead` hands to the host when nothing was sent before. -/
theorem hostCalls_onFileRead (env : Env) (s : State) (content : String)
    (hc : s.called = false) (hno : s.hostCalls = []) :
    (onFileRead env s (some content)).hostCalls =
      [{ statusCode := 200
         headers := some (assignHeaders s.headers
           [("Content-Type", if s.canExecuteHTML then "text/html" else "text/plain")])
         data := some (.text (if s.canExecuteHTML then renderMD env content else content)) }] := by
  simp [onFileRead, respond_eq, hc, hno]

/-- What the `end` listener hands to the host when nothing was sent before. -/
theorem hostCalls_onStreamEnd (s : State)
    (hc : s.called = false) (hno : s.hostCalls = []) (hs : s.headersSent = false) :
    (onStreamEnd s).hostCalls =
      [{ statusCode := 200
         headers := some
           [("Content-Security-Policy", s.cspHeader),
            ("Access-Control-Allow-Origin", "*")]
         data := some (.text "") }] := by
  simp [onStreamEnd, respond_eq, cleanup, emit, hc, hno, hs]

/-! ## Inline markdown (lines 184-198 and 316-328) -/

/-- C11, as stated, fails in its second half: on an archive whose handler does
not permit HTML execution, a request that wants HTML is answered by the handler
shell (line 185) before any path is resolved, so a `.md` file is never served as
raw `text/plain` markdown; the response is the shell, with `text/html`. -/
theorem markdown_counterexample :
    sampleEnv.acceptHeaderWantsHTML getReadmeHtml.headers.Accept = true ∧
      (electronHandler sampleEnv getReadmeHtml (upToPath "files")).canExecuteHTML = false ∧
      (electronHandler sampleEnv getReadmeHtml
        (upToPath "files" ++ [.pathResolved (some (some readme)), .fileRead (some "# hi")])).hostCalls
        = [{ statusCode := 200
             headers := some [("Content-Type", "text/html")]
             data := some (.text (shellDocument sampleEnv "files")) }] ∧
      (electronHandler sampleEnv getReadmeHtml
        (upToPath "files" ++ [.pathResolved (some (some readme)), .fileRead (some "# hi")])).effects.any
        isRead = false := by
  decide

/-- C11, amended. A request with an Accept header that wants HTML reaches the
path resolution only on an archive whose handler is `website`; when its path
resolves to a file entry ending in `.md` and it carries no Range header, the
response is 200 with Content-Type `text/html` and, as its body, the rendered
markdown wrapped in an html/body document. -/
theorem markdown_inline (env : Env) (req : Request) (evs : List Event) (e : Entry)
    (content : String)
    (hpc : (electronHandler env req evs).pc = .resolvingPath)
    (hno : (electronHandler env req evs).hostCalls = [])
    (hfile : e.isDirectory = false)
    (hmd : endsWith e.path ".md" = true)
    (hwant : env.acceptHeaderWantsHTML req.headers.Accept = true)
    (hR : req.headers.Range = none) (hr : req.headers.range = none) :
    (electronHandler env req evs).handler = "website" ∧
      ∃ r, (electronHandler env req
            (evs ++ [.pathResolved (some (some e)), .fileRead (some content)])).hostCalls = [r] ∧
        r.statusCode = 200 ∧
        responseHeader r "Content-Type" = some "text/html" ∧
        r.data = some (.text
          ("<html>\n  <body>\n    " ++ env.mdRender content ++ "\n  </body>\n</html>")) := by
  have hinv := inv_run env req evs
  have hst := stage_run env req evs
  have hc := called_of_no_hostCalls (onceInv_run env req evs) hno
  obtain ⟨hhd, _⟩ := hinv.fresh hpc
  have hcan : (electronHandler env req evs).canExecuteHTML = true := by
    rcases hst.gate hpc with h | h
    · exact h
    · rw [hwant] at h; cases h
  have hweb : (electronHandler env req evs).handler = "website" := by
    have h := hinv.canExec
    rw [hcan] at h
    exact of_decide_eq_true h.symm
  have hrr : readRange env req e = .noHeader := by
    simp [readRange, orElseStr, hR, hr]
  obtain ⟨sc, hd, hT, _, _, _, _⟩ :=
    composed_frame { electronHandler env req evs with entry := some e } e
      (readRange env req e) hhd
  obtain ⟨S, hS, hSpc, hSc, hSno, hScan, hShd⟩ :
      ∃ S, step env req (electronHandler env req evs) (.pathResolved (some (some e))) = S ∧
        S.pc = .readingFile ∧ S.called = false ∧ S.hostCalls = [] ∧
        S.canExecuteHTML = true ∧ S.headers = hd := by
    refine ⟨_, step_pathResolved_file env req _ e hpc hfile, ?_⟩
    rw [hT, openEntry_inline env req _ e (by simp [hrr, bytesRange, hmd, hwant])]
    exact ⟨rfl, hc, hno, hcan, rfl⟩
  have h2 : step env req S (.fileRead (some content)) = onFileRead env S (some content) := by
    simp [step, hSpc]
  rw [run_append, List.foldl_cons, List.foldl_cons, List.foldl_nil, hS, h2]
  refine ⟨hweb, _, hostCalls_onFileRead env S content hSc hSno, rfl, ?_, ?_⟩
  · simp [responseHeader, assignHeaders, getHeader_setHeader_same, hScan]
  · simp [hScan, renderMD]

/-- C11 amended, at a concrete request: `readme.md` on a `website` archive. -/
theorem markdown_inline_witness :
    (electronHandler sampleEnv getReadmeHtml (upToPath "website")).handler = "website" ∧
      ∃ r, (electronHandler sampleEnv getReadmeHtml
            (upToPath "website" ++
              [.pathResolved (some (some readme)), .fileRead (some "# hi")])).hostCalls = [r] ∧
        r.statusCode = 200 ∧
        responseHeader r "Content-Type" = some "text/html" ∧
        r.data = some (.text "<html>\n  <body>\n    # hi\n  </body>\n</html>") := by
  have h := markdown_inline sampleEnv getReadmeHtml (upToPath "website") readme "# hi"
    (by decide) (by decide) (by decide) (by decide) (by decide) (by decide) (by decide)
  exact h

theorem rangeAfter_eq_noHeader (R : RangeVar) : rangeAfter R = .noHeader ↔ R = .noHeader := by
  unfold rangeAfter
  cases hb : bytesRange R with
  | none => simp
  | some r =>
    constructor
    · intro h; cases h
    · intro h; rw [h] at hb; cases hb

/-- The turn that resolves the path to a file entry which is then streamed. -/
theorem step_pathResolved_stream (env : Env) (req : Request) (s : State) (e : Entry)
    (hpc : s.pc = .resolvingPath) (hfile : e.isDirectory = false) (hhd : s.headers = [])
    (hstream : rendersInline env req e = false) :
    ∃ sc hd, step env req s (.pathResolved (some (some e))) =
        { s with
          pc := .streaming
          entry := some e
          range := rangeAfter (readRange env req e)
          statusCode := sc
          headers := hd
          effects := s.effects ++
            [.createReadStream e.path (rangeAfter (readRange env req e))]
          fileReadStream := true
          endListener := true
          errorListener := true } ∧
      getHeader hd "Accept-Ranges" = some "bytes" ∧
      getHeader hd "Content-Security-Policy" = some s.cspHeader ∧
      getHeader hd "Access-Control-Allow-Origin" = some "*" ∧
      (bytesRange (readRange env req e) = none → sc = s.statusCode ∧
        getHeader hd "Content-Range" = none ∧
        getHeader hd "Content-Length" = if e.size ≠ 0 then some (toString e.size) else none) := by
  obtain ⟨sc, hd, hT, h1, h2, h3, h4⟩ :=
    composed_frame { s with entry := some e } e (readRange env req e) hhd
  refine ⟨sc, hd, ?_, h1, h2, h3, h4⟩
  rw [step_pathResolved_file env req s e hpc hfile, hT, openEntry_stream]
  · rfl
  · have hiff := rangeAfter_eq_noHeader (readRange env req e)
    unfold rangeAfter at hiff
    unfold rendersInline at hstream
    by_cases hn : readRange env req e = .noHeader
    · simp only [hn, decide_True, Bool.true_and] at hstream
      simp [hiff.2 hn, hstream]
    · have : ¬ (match bytesRange (readRange env req e) with
          | some r => RangeVar.first r
          | none => readRange env req e) = .noHeader := fun h => hn (hiff.1 h)
      simp [this]

/-- The turn that resolves the path to a markdown entry which is then read whole. -/
theorem step_pathResolved_inline (env : Env) (req : Request) (s : State) (e : Entry)
    (hpc : s.pc = .resolvingPath) (hfile : e.isDirectory = false) (hhd : s.headers = [])
    (hinline : rendersInline env req e = true) :
    ∃ sc hd, step env req s (.pathResolved (some (some e))) =
        { s with
          pc := .readingFile
          entry := some e
          range := .noHeader
          statusCode := sc
          headers := hd
          effects := s.effects ++ [.readFile e.path] } ∧
      getHeader hd "Accept-Ranges" = some "bytes" ∧
      getHeader hd "Content-Security-Policy" = some s.cspHeader ∧
      getHeader hd "Access-Control-Allow-Origin" = some "*" ∧
      sc = s.statusCode ∧
      getHeader hd "Content-Range" = none ∧
      getHeader hd "Content-Length" = if e.size ≠ 0 then some (toString e.size) else none := by
  unfold rendersInline at hinline
  simp only [Bool.and_eq_true, decide_eq_true_eq] at hinline
  obtain ⟨⟨hn, hmd⟩, hwant⟩ := hinline
  obtain ⟨sc, hd, hT, h1, h2, h3, h4⟩ :=
    composed_frame { s with entry := some e } e (readRange env req e) hhd
  have hb : bytesRange (readRange env req e) = none := by rw [hn]; rfl
  obtain ⟨h5, h6, h7⟩ := h4 hb
  refine ⟨sc, hd, ?_, h1, h2, h3, h5, h6, h7⟩
  rw [step_pathResolved_file env req s e hpc hfile, hT, openEntry_inline]
  · simp [hn, bytesRange]
  · simp [hn, bytesRange, hmd, hwant]

/-! ## Empty files (lines 365-378) -/

/-- C12, as stated, fails: an empty `.md` entry requested with an Accept header
that wants HTML is read whole and rendered (line 317), and the body of the 200
response is the html/body wrapper, not the empty string. -/
theorem empty_file_counterexample :
    emptyReadme.size = 0 ∧
      (electronHandler sampleEnv getReadmeHtml
        (upToPath "website" ++ [.pathResolved (some (some emptyReadme)), .fileRead (some "")])).hostCalls
        = [{ statusCode := 200
             headers := some
               [("Accept-Ranges", "bytes"),
                ("Content-Security-Policy", "default-src * 'unsafe-inline'"),
                ("Access-Control-Allow-Origin", "*"),
                ("Cache-Control", "no-cache"),
                ("Content-Type", "text/html")]
             data := some (.text "<html>\n  <body>\n    \n  </body>\n</html>") }] := by
  decide

/-- C12, amended. For a request whose path resolves to a file entry that is
served through the read stream (any entry but a `.md` one requested with an
Accept header that wants HTML and no Range header), whatever the Accept header:
when the stream ends before the sniffer callback fired, as it does for an entry
of size 0, the response has status code 200, the policy and CORS headers and an
empty body, and nothing that happens later changes it. -/
theorem empty_file_response (env : Env) (req : Request) (evs more : List Event) (e : Entry)
    (hpc : (electronHandler env req evs).pc = .resolvingPath)
    (hno : (electronHandler env req evs).hostCalls = [])
    (hfile : e.isDirectory = false)
    (hstream : rendersInline env req e = false) :
    (electronHandler env req
        (evs ++ .pathResolved (some (some e)) :: .streamEnd :: more)).hostCalls =
      [{ statusCode := 200
         headers := some
           [("Content-Security-Policy", manifestCsp (electronHandler env req evs).manifest),
            ("Access-Control-Allow-Origin", "*")]
         data := some (.text "") }] := by
  have hinv := inv_run env req evs
  have hst := stage_run env req evs
  have hc := called_of_no_hostCalls (onceInv_run env req evs) hno
  obtain ⟨hhd, _⟩ := hinv.fresh hpc
  have hsent := hinv.notSent hc
  have hcsp := hst.csp hpc
  obtain ⟨sc, hd, hS, _⟩ :=
    step_pathResolved_stream env req _ e hpc hfile hhd hstream
  have h2 : (electronHandler env req
      (evs ++ [.pathResolved (some (some e)), .streamEnd])).hostCalls =
      [{ statusCode := 200
         headers := some
           [("Content-Security-Policy", manifestCsp (electronHandler env req evs).manifest),
            ("Access-Control-Allow-Origin", "*")]
         data := some (.text "") }] := by
    rw [run_append, List.foldl_cons, List.foldl_cons, List.foldl_nil, hS]
    simp only [step, and_self, if_true]
    refine (hostCalls_onStreamEnd _ ?_ ?_ ?_).trans ?_
    · exact hc
    · exact hno
    · exact hsent
    · simp only [hcsp]
  have h3 := hostCalls_run_append env req
    (evs ++ [.pathResolved (some (some e)), .streamEnd]) more (by rw [h2]; simp)
  rw [List.append_assoc] at h3
  simp only [List.cons_append, List.nil_append] at h3
  rw [h3, h2]

/-- C12 amended, at a concrete request: an empty text file, Accept `text/html`. -/
theorem empty_file_response_witness :
    (electronHandler sampleEnv getReadmeHtml
        (upToPath "website" ++
          .pathResolved (some (some emptyFile)) :: .streamEnd :: [.sniffed "text/plain"])).hostCalls =
      [{ statusCode := 200
         headers := some
           [("Content-Security-Policy", "default-src * 'unsafe-inline'"),
            ("Access-Control-Allow-Origin", "*")]
         data := some (.text "") }] :=
  empty_file_response sampleEnv getReadmeHtml (upToPath "website") [.sniffed "text/plain"]
    emptyFile (by decide) (by decide) (by decide) (by decide)

/-! ## The handler stage (lines 175-240) -/

theorem serve_pc (env : Env) (req : Request) (s : State) (handler : String) :
    (serve env req s handler).pc = .returned ∨ (serve env req s handler).pc = .resolvingPath := by
  unfold serve
  dsimp only
  split
  · exact Or.inl rfl
  · split
    · exact Or.inl (serveZip_pc _ _ _)
    · exact Or.inr rfl

/-- The two turns that settle the handler, from the manifest read on: they end in
`serve`, called with the chosen handler on a state that holds the manifest. -/
theorem handler_stage (env : Env) (req : Request) (s : State)
    (r : Option (Option Manifest)) (h : String) (hpc : s.pc = .readingManifest) :
    ∃ T, [Event.manifestRead r, Event.defaultHandler (some h)].foldl (step env req) s =
        serve env req T (chosenHandler env req h) ∧
      T.pc.early = true ∧ T.manifest = r.getD none ∧ T.called = s.called ∧
      T.hostCalls = s.hostCalls ∧ T.cspHeader = s.cspHeader ∧ T.checkoutFS = s.checkoutFS ∧
      T.filepath = s.filepath ∧ T.urlp = s.urlp ∧ T.timer = s.timer ∧
      T.fileReadStream = s.fileReadStream ∧
      T.effects.any isRead = s.effects.any isRead := by
  have hm : (match r with
      | some m => m
      | none => none) = r.getD none := by
    cases r <;> rfl
  simp only [List.foldl_cons, List.foldl_nil]
  have h1 : step env req s (.manifestRead r) = onManifestRead env req s r := by
    simp [step, hpc]
  rw [h1]
  unfold onManifestRead chosenHandler
  dsimp only
  rw [hm]
  cases ho : orElseStr (env.getDriveHandler req.url) none with
  | some o =>
    refine ⟨{ s with manifest := r.getD none }, ?_, by simp [hpc, Pc.early], rfl, rfl, rfl, rfl,
      rfl, rfl, rfl, rfl, rfl, rfl⟩
    have hne : (serve env req { s with manifest := r.getD none } o).pc ≠ .lookingUpHandler := by
      rcases serve_pc env req { s with manifest := r.getD none } o with h | h <;> simp [h]
    simp [step, hne]
  | none =>
    refine ⟨{ emit { s with manifest := r.getD none }
        (.getDefaultDriveHandler (match r.getD none with
          | some m => m.type
          | none => none)) with pc := .lookingUpHandler }, ?_, rfl, rfl, rfl, rfl, rfl, rfl,
      rfl, rfl, rfl, rfl, ?_⟩
    · simp [step, onDefaultHandler]
    · simp [emit, isRead]

/-- What the zip branch hands to the host, and what it calls. -/
theorem serveZip_result (env : Env) (req : Request) (t : State)
    (hc : t.called = false) (hno : t.hostCalls = []) :
    (serveZip env req t).hostCalls =
        [{ statusCode := if req.method = "HEAD" then 204 else 200
           headers := some
             [("Content-Type", "application/zip"),
              ("Content-Disposition",
                "attachment; filename=\"" ++ zipName env t.manifest ++ ".zip\""),
              ("Content-Security-Policy", t.cspHeader),
              ("Access-Control-Allow-Origin", "*")]
           data := some (if req.method = "HEAD" then .text ""
             else .zipStream t.checkoutFS t.filepath) }] ∧
      (serveZip env req t).effects =
        t.effects ++ .clearTimeout ::
          (if req.method = "HEAD" then [] else [.toZipStream t.checkoutFS t.filepath]) ∧
      (serveZip env req t).fileReadStream = t.fileReadStream := by
  have hz : (if truthy (match t.manifest with
        | some m => env.toLowerCase (env.slugify (m.title.getD ""))
        | none => "") = true then
        (match t.manifest with
        | some m => env.toLowerCase (env.slugify (m.title.getD ""))
        | none => "") else "archive") = zipName env t.manifest := by
    cases t.manifest with
    | none => simp [zipName, truthy]
    | some m => simp [zipName]
  unfold serveZip
  by_cases hm : req.method = "HEAD" <;>
    simp [hm, respond_eq, cleanup, emit, hc, hno, hz]

/-- After a `return`, later turns call no collaborator that reads the archive. -/
theorem returned_foldl (env : Env) (req : Request) (evs : List Event) (s : State)
    (hpc : s.pc = .returned) (hfs : s.fileReadStream = false) :
    (evs.foldl (step env req) s).effects.any isRead = s.effects.any isRead := by
  induction evs generalizing s with
  | nil => rfl
  | cons ev evs ih =>
    have hstep : step env req s ev = s ∨ step env req s ev = onTimeout env req s := by
      cases ev <;> simp [step, hpc]
      by_cases ht : s.timer = .armed <;> simp [ht]
    rw [List.foldl_cons]
    rcases hstep with h | h
    · rw [h]; exact ih s hpc hfs
    · rw [h, ih]
      · simp [onTimeout, hfs, respondError, respond_eq, emit, isRead]
      · simp [onTimeout, hfs, respondError, respond_eq, emit, hpc]
      · simp [onTimeout, hfs, respondError, respond_eq, emit]

/-- The state in which the zip branch is entered, two turns after the manifest
read was started. -/
theorem zip_stage (env : Env) (req : Request) (evs : List Event)
    (r : Option (Option Manifest)) (h : String)
    (hpc : (electronHandler env req evs).pc = .readingManifest)
    (hno : (electronHandler env req evs).hostCalls = [])
    (hzip : (env.parseDatUrl req.url).downloadAs = some "zip")
    (hshell : servesShell env req (chosenHandler env req h) = false) :
    ∃ T, electronHandler env req (evs ++ [.manifestRead r, .defaultHandler (some h)]) =
        serveZip env req T ∧
      T.called = false ∧ T.hostCalls = [] ∧ T.manifest = r.getD none ∧
      T.cspHeader = manifestCsp (r.getD none) ∧
      T.checkoutFS = (electronHandler env req evs).checkoutFS ∧
      T.filepath = (electronHandler env req evs).filepath ∧
      T.fileReadStream = false ∧ T.effects.any isRead = false := by
  have hinv := inv_run env req evs
  have hst := stage_run env req evs
  have hc := called_of_no_hostCalls (onceInv_run env req evs) hno
  have hearly : (electronHandler env req evs).pc.early = true := by simp [hpc, Pc.early]
  obtain ⟨T, hT, hTe, hTm, hTc, hTh, hTcsp, hTfs, hTfp, hTu, _, hTrs, hTr⟩ :=
    handler_stage env req (electronHandler env req evs) r h hpc
  have hcsp : T.cspHeader = "default-src * 'unsafe-inline'" := by
    rw [hTcsp]; exact hst.cspInit hearly
  have hu : T.urlp.downloadAs = some "zip" := by rw [hTu, hinv.urlp]; exact hzip
  refine ⟨{ T with handler := chosenHandler env req h
                   canExecuteHTML := decide (chosenHandler env req h = "website")
                   cspHeader := manifestCsp T.manifest }, ?_, ?_, ?_, hTm, ?_, hTfs, hTfp, ?_, ?_⟩
  · rw [run_append, hT, serve_eq env req T _ hcsp, if_neg (by simp [hshell]), if_pos hu]
  · exact hTc.trans hc
  · exact hTh.trans hno
  · show manifestCsp T.manifest = _
    rw [hTm]
  · exact hTrs.trans (hinv.noStream (by simp [hpc]))
  · exact hTr.trans (hst.noRead hearly)

theorem not_mem_of_any_isRead (l : List Effect) (e : Effect) (h : l.any isRead = false)
    (he : isRead e = true) : e ∉ l := by
  intro hmem
  rw [List.any_eq_false] at h
  exact h e hmem he

/-- C13, as stated, fails: on an archive whose handler is not `website`, a
`download_as=zip` request that wants HTML is answered by the handler shell
(line 185 comes before line 206), not by the zip. -/
theorem zip_counterexample :
    (sampleEnv.parseDatUrl getZipHtml.url).downloadAs = some "zip" ∧
      (electronHandler sampleEnv getZipHtml (upToPath "files")).hostCalls =
        [{ statusCode := 200
           headers := some [("Content-Type", "text/html")]
           data := some (.text (shellDocument sampleEnv "files")) }] ∧
      (electronHandler sampleEnv getZipHtml (upToPath "files")).effects.any isRead = false := by
  decide

/-- C13, amended. For a request whose query has `download_as=zip`, whose archive
opened and checked out, and for which the handler shell is not served (the
handler is `website` or the Accept header does not want HTML): with method
`HEAD` the response is 204 with Content-Type `application/zip`, the
Content-Disposition attachment filename, the policy and CORS headers and an empty
body, and `toZipStream` is never called; with another method the response is 200
with the same headers and, as its body, the zip stream of the subtree rooted at
the request path. -/
theorem zip_download (env : Env) (req : Request) (evs more : List Event)
    (r : Option (Option Manifest)) (h : String)
    (hpc : (electronHandler env req evs).pc = .readingManifest)
    (hno : (electronHandler env req evs).hostCalls = [])
    (hzip : (env.parseDatUrl req.url).downloadAs = some "zip")
    (hshell : servesShell env req (chosenHandler env req h) = false) :
    (electronHandler env req
        (evs ++ [.manifestRead r, .defaultHandler (some h)] ++ more)).hostCalls =
      [{ statusCode := if req.method = "HEAD" then 204 else 200
         headers := some
           [("Content-Type", "application/zip"),
            ("Content-Disposition",
              "attachment; filename=\"" ++ zipName env (r.getD none) ++ ".zip\""),
            ("Content-Security-Policy", manifestCsp (r.getD none)),
            ("Access-Control-Allow-Origin", "*")]
         data := some (if req.method = "HEAD" then .text ""
           else .zipStream (electronHandler env req evs).checkoutFS
             (electronHandler env req evs).filepath) }] ∧
      requestedPath env (env.parseDatUrl req.url) =
        some (electronHandler env req evs).filepath ∧
      (req.method = "HEAD" → ∀ fs p, Effect.toZipStream fs p ∉
        (electronHandler env req
          (evs ++ [.manifestRead r, .defaultHandler (some h)] ++ more)).effects) := by
  have hinv := inv_run env req evs
  obtain ⟨T, hT, hTc, hTh, hTm, hTcsp, hTfs, hTfp, hTrs, hTr⟩ :=
    zip_stage env req evs r h hpc hno hzip hshell
  obtain ⟨hz1, hz2, hz3⟩ := serveZip_result env req T hTc hTh
  have hcalls := (congrArg State.hostCalls hT).trans hz1
  refine ⟨?_, ?_, ?_⟩
  · rw [hostCalls_run_append _ _ _ _ (by rw [hcalls]; simp), hcalls, hTm, hTcsp, hTfs, hTfp]
  · have hp := hinv.path (by rw [hpc]; rfl)
    rw [hinv.urlp] at hp
    exact hp
  · intro hm fs p
    refine not_mem_of_any_isRead _ (.toZipStream fs p) ?_ rfl
    rw [run_append, hT, returned_foldl env req more _ (serveZip_pc _ _ _) (hz3.trans hTrs), hz2]
    simp [hm, hTr, isRead]

/-- C13 amended, at concrete requests: `HEAD` and `GET` of
`dat://example.com/docs?download_as=zip` on an archive whose manifest has the
title `blog`. -/
theorem zip_download_witness :
    (electronHandler sampleEnv headZip
        ([.nameResolved (some "key"), .archiveLoaded (some "archive"), .checkedOut (some "fs")]
          ++ [.manifestRead (some (some blogManifest)), .defaultHandler (some "website")]
          ++ [.timeout])).hostCalls =
      [{ statusCode := 204
         headers := some
           [("Content-Type", "application/zip"),
            ("Content-Disposition", "attachment; filename=\"blog.zip\""),
            ("Content-Security-Policy", "default-src 'self'"),
            ("Access-Control-Allow-Origin", "*")]
         data := some (.text "") }] := by
  have h := zip_download sampleEnv headZip
    [.nameResolved (some "key"), .archiveLoaded (some "archive"), .checkedOut (some "fs")]
    [.timeout] (some (some blogManifest)) "website" (by decide) (by decide) (by decide)
    (by decide)
  exact h.1

/-! ## The headers of file responses (lines 295-314) -/

/-- The response to a file entry that is streamed, when the sniffer callback
fires first: its status and its headers. -/
theorem streamed_response (env : Env) (req : Request) (evs : List Event) (e : Entry)
    (m : String)
    (hpc : (electronHandler env req evs).pc = .resolvingPath)
    (hno : (electronHandler env req evs).hostCalls = [])
    (hfile : e.isDirectory = false)
    (hstream : rendersInline env req e = false) :
    ∃ sc hd, (electronHandler env req
          (evs ++ [.pathResolved (some (some e)), .sniffed m])).hostCalls =
        [{ statusCode := if req.method = "HEAD" then 204 else sc
           headers := some (assignHeaders hd
             [("Content-Type",
               if !(electronHandler env req evs).canExecuteHTML && includes m "html"
               then "text/plain" else m)])
           data := some (if req.method = "HEAD" then .text ""
             else .dataStream e.path (rangeAfter (readRange env req e))) }] ∧
      getHeader hd "Accept-Ranges" = some "bytes" ∧
      getHeader hd "Content-Security-Policy" =
        some (manifestCsp (electronHandler env req evs).manifest) ∧
      getHeader hd "Access-Control-Allow-Origin" = some "*" ∧
      (bytesRange (readRange env req e) = none → sc = 200 ∧
        getHeader hd "Content-Range" = none ∧
        getHeader hd "Content-Length" = if e.size ≠ 0 then some (toString e.size) else none) := by
  have hinv := inv_run env req evs
  have hst := stage_run env req evs
  have hc := called_of_no_hostCalls (onceInv_run env req evs) hno
  obtain ⟨hhd, hsc⟩ := hinv.fresh hpc
  obtain ⟨sc, hd, hS, h1, h2, h3, h4⟩ :=
    step_pathResolved_stream env req _ e hpc hfile hhd hstream
  refine ⟨sc, hd, ?_, h1, ?_, h3, ?_⟩
  · rw [run_append, List.foldl_cons, List.foldl_cons, List.foldl_nil, hS]
    simp only [step, if_true]
    refine (hostCalls_onSniffed req _ m ?_ ?_).trans ?_
    · exact hc
    · exact hno
    · rfl
  · rw [h2, hst.csp hpc]
  · intro hb
    obtain ⟨h5, h6, h7⟩ := h4 hb
    exact ⟨h5.trans hsc, h6, h7⟩

/-- The response to a markdown entry that is read whole: its status and headers. -/
theorem inline_response (env : Env) (req : Request) (evs : List Event) (e : Entry)
    (content : String)
    (hpc : (electronHandler env req evs).pc = .resolvingPath)
    (hno : (electronHandler env req evs).hostCalls = [])
    (hfile : e.isDirectory = false)
    (hinline : rendersInline env req e = true) :
    ∃ hd, (electronHandler env req
          (evs ++ [.pathResolved (some (some e)), .fileRead (some content)])).hostCalls =
        [{ statusCode := 200
           headers := some (assignHeaders hd
             [("Content-Type",
               if (electronHandler env req evs).canExecuteHTML then "text/html"
               else "text/plain")])
           data := some (.text
             (if (electronHandler env req evs).canExecuteHTML then renderMD env content
              else content)) }] ∧
      getHeader hd "Accept-Ranges" = some "bytes" ∧
      getHeader hd "Content-Security-Policy" =
        some (manifestCsp (electronHandler env req evs).manifest) ∧
      getHeader hd "Access-Control-Allow-Origin" = some "*" ∧
      getHeader hd "Content-Range" = none ∧
      getHeader hd "Content-Length" = if e.size ≠ 0 then some (toString e.size) else none := by
  have hinv := inv_run env req evs
  have hst := stage_run env req evs
  have hc := called_of_no_hostCalls (onceInv_run env req evs) hno
  obtain ⟨hhd, hsc⟩ := hinv.fresh hpc
  obtain ⟨sc, hd, hS, h1, h2, h3, _, h6, h7⟩ :=
    step_pathResolved_inline env req _ e hpc hfile hhd hinline
  refine ⟨hd, ?_, h1, ?_, h3, h6, h7⟩
  · rw [run_append, List.foldl_cons, List.foldl_cons, List.foldl_nil, hS]
    simp only [step, if_true]
    refine (hostCalls_onFileRead env _ content ?_ ?_).trans ?_
    · exact hc
    · exact hno
    · rfl
  · rw [h2, hst.csp hpc]

theorem getHeader_contentType (hd : Headers) (v k : String) (hk : k ≠ "Content-Type") :
    getHeader (assignHeaders hd [("Content-Type", v)]) k = getHeader hd k := by
  simp only [assignHeaders, List.foldl]
  exact getHeader_setHeader_ne hd "Content-Type" k v (Ne.symm hk)

/-- C14, as stated, fails: the response to an empty file (lines 369-376) has
the policy and CORS headers only, and no `Accept-Ranges`. -/
theorem accept_ranges_counterexample :
    (electronHandler sampleEnv getDocs
        (upToPath "website" ++ [.pathResolved (some (some emptyFile)), .streamEnd])).hostCalls =
      [{ statusCode := 200
         headers := some
           [("Content-Security-Policy", "default-src * 'unsafe-inline'"),
            ("Access-Control-Allow-Origin", "*")]
         data := some (.text "") }] ∧
      getHeader
        [("Content-Security-Policy", "default-src * 'unsafe-inline'"),
         ("Access-Control-Allow-Origin", "*")] "Accept-Ranges" = none := by
  decide

/-- C14, amended. `Accept-Ranges: bytes` is among the headers of the response
that serves a resolved file entry when it is rendered inline as markdown and
when the sniffer callback answers, with the stream or to `HEAD`, whether or not
the request carried a Range header. -/
theorem accept_ranges_advertised (env : Env) (req : Request) (evs : List Event) (e : Entry)
    (m content : String)
    (hpc : (electronHandler env req evs).pc = .resolvingPath)
    (hno : (electronHandler env req evs).hostCalls = [])
    (hfile : e.isDirectory = false) :
    ∃ r, (electronHandler env req
          (evs ++ [.pathResolved (some (some e)),
            if rendersInline env req e = true then .fileRead (some content)
            else .sniffed m])).hostCalls = [r] ∧
      responseHeader r "Accept-Ranges" = some "bytes" := by
  by_cases hi : rendersInline env req e = true
  · obtain ⟨hd, h1, h2, _⟩ := inline_response env req evs e content hpc hno hfile hi
    rw [if_pos hi]
    refine ⟨_, h1, ?_⟩
    simp only [responseHeader, Option.bind]
    rw [getHeader_contentType _ _ _ (by decide)]
    exact h2
  · have hi' : rendersInline env req e = false := by simpa using hi
    obtain ⟨sc, hd, h1, h2, _⟩ := streamed_response env req evs e m hpc hno hfile hi'
    rw [if_neg hi]
    refine ⟨_, h1, ?_⟩
    simp only [responseHeader, Option.bind]
    rw [getHeader_contentType _ _ _ (by decide)]
    exact h2

/-- C14 amended, at a concrete request: a `HEAD` with a Range header. -/
theorem accept_ranges_advertised_witness :
    ∃ r, (electronHandler sampleEnv headRange
          (upToPath "website" ++ [.pathResolved (some (some docsFile)),
            if rendersInline sampleEnv headRange docsFile = true then .fileRead (some "")
            else .sniffed "text/plain"])).hostCalls = [r] ∧
      responseHeader r "Accept-Ranges" = some "bytes" :=
  accept_ranges_advertised sampleEnv headRange (upToPath "website") docsFile "text/plain" ""
    (by decide) (by decide) (by decide)

/-! ## The handler shell (lines 179-198) -/

/-- C15. The handler is the per-URL override when one is registered and otherwise
the answer of the default-handler lookup, which is called with `manifest.type`;
HTML execution is permitted exactly when the handler is `website`.  When it is not
permitted and the Accept header wants HTML, the response is 200 with Content-Type
`text/html` and the shell document that references the handler's
`drive-handler.css` and `drive-handler.js`; neither the path resolver nor any
file read is ever invoked for the request. -/
theorem handler_shell (env : Env) (req : Request) (evs more : List Event)
    (r : Option (Option Manifest)) (h : String)
    (hpc : (electronHandler env req evs).pc = .readingManifest)
    (hno : (electronHandler env req evs).hostCalls = [])
    (hshell : servesShell env req (chosenHandler env req h) = true) :
    (electronHandler env req
        (evs ++ [.manifestRead r, .defaultHandler (some h)] ++ more)).hostCalls =
      [{ statusCode := 200
         headers := some [("Content-Type", "text/html")]
         data := some (.text
           ("<meta charset=\"utf-8\">\n<link rel=\"stylesheet\" href=\""
            ++ env.joinPath (chosenHandler env req h) "drive-handler.css"
            ++ "\">\n<script type=\"module\" src=\""
            ++ env.joinPath (chosenHandler env req h) "drive-handler.js"
            ++ "\"></script>\n")) }] ∧
      (electronHandler env req (evs ++ [.manifestRead r, .defaultHandler (some h)])).handler =
        chosenHandler env req h ∧
      (electronHandler env req
        (evs ++ [.manifestRead r, .defaultHandler (some h)])).canExecuteHTML =
        decide (chosenHandler env req h = "website") ∧
      (orElseStr (env.getDriveHandler req.url) none = none →
        (electronHandler env req (evs ++ [.manifestRead r])).effects =
          (electronHandler env req evs).effects ++
            [.getDefaultDriveHandler ((r.getD none).bind Manifest.type)]) ∧
      (electronHandler env req
        (evs ++ [.manifestRead r, .defaultHandler (some h)] ++ more)).effects.any isRead
        = false := by
  have hinv := inv_run env req evs
  have hst := stage_run env req evs
  have hc := called_of_no_hostCalls (onceInv_run env req evs) hno
  have hearly : (electronHandler env req evs).pc.early = true := by simp [hpc, Pc.early]
  obtain ⟨T, hT, hTe, hTm, hTc, hTh, hTcsp, hTfs, hTfp, hTu, _, hTrs, hTr⟩ :=
    handler_stage env req (electronHandler env req evs) r h hpc
  have hcsp : T.cspHeader = "default-src * 'unsafe-inline'" := by
    rw [hTcsp]; exact hst.cspInit hearly
  have hTc' : T.called = false := hTc.trans hc
  have hTh' : T.hostCalls = [] := hTh.trans hno
  have hfin : electronHandler env req (evs ++ [.manifestRead r, .defaultHandler (some h)]) =
      { respond { T with handler := chosenHandler env req h
                         canExecuteHTML := decide (chosenHandler env req h = "website") }
          { statusCode := 200
            headers := some [("Content-Type", "text/html")]
            data := some (.text (shellDocument env (chosenHandler env req h))) }
        with pc := .returned } := by
    rw [run_append, hT, serve_eq env req T _ hcsp, if_pos hshell]
  have hcalls : (electronHandler env req
      (evs ++ [.manifestRead r, .defaultHandler (some h)])).hostCalls =
      [{ statusCode := 200
         headers := some [("Content-Type", "text/html")]
         data := some (.text (shellDocument env (chosenHandler env req h))) }] := by
    rw [hfin]
    simp [respond_eq, hTc', hTh']
  refine ⟨?_, ?_, ?_, ?_, ?_⟩
  · rw [hostCalls_run_append _ _ _ _ (by rw [hcalls]; simp), hcalls]
    rfl
  · rw [hfin]; simp [respond_eq]
  · rw [hfin]; simp [respond_eq]
  · intro ho
    rw [run_append]
    have hm : (match r with
        | some m => m
        | none => none) = r.getD none := by
      cases r <;> rfl
    simp only [List.foldl_cons, List.foldl_nil, step, hpc, if_true, onManifestRead, ho, hm, emit]
    cases r.getD none <;> rfl
  · rw [run_append, returned_foldl env req more _ (by rw [hfin]) (by
      rw [hfin, respond_eq]; exact hTrs.trans (hinv.noStream (by simp [hpc]))), hfin,
      respond_eq]
    exact hTr.trans (hst.noRead hearly)

/-- C15, at a concrete request: Accept `text/html` on an archive whose default
handler is `files`. -/
theorem handler_shell_witness :
    (electronHandler sampleEnv getDocsHtml
        ([.nameResolved (some "key"), .archiveLoaded (some "archive"), .checkedOut (some "fs")]
          ++ [.manifestRead (some none), .defaultHandler (some "files")]
          ++ [.pathResolved (some (some docsFile)), .timeout])).hostCalls =
      [{ statusCode := 200
         headers := some [("Content-Type", "text/html")]
         data := some (.text
           ("<meta charset=\"utf-8\">\n<link rel=\"stylesheet\" href=\"files/drive-handler.css\">\n"
            ++ "<script type=\"module\" src=\"files/drive-handler.js\"></script>\n")) }] := by
  have h := handler_shell sampleEnv getDocsHtml
    [.nameResolved (some "key"), .archiveLoaded (some "archive"), .checkedOut (some "fs")]
    [.pathResolved (some (some docsFile)), .timeout] (some none) "files"
    (by decide) (by decide) (by decide)
  exact h.1

/-! ## The manifest (lines 175-181) -/

theorem onManifestRead_pc (env : Env) (req : Request) (s : State)
    (r : Option (Option Manifest)) : (onManifestRead env req s r).pc ≠ .threw := by
  unfold onManifestRead
  dsimp only
  split
  · rename_i o _
    intro h
    rcases serve_pc env req _ o with h' | h' <;> rw [h'] at h <;> cases h
  · intro h
    cases h

/-- C16. A manifest read that throws leaves the request in the very state that a
manifest read returning `null` leaves it in, so whatever the other collaborators
do afterwards the two requests stay in the same state and get the same response
(with no manifest the policy is the default one and the zip name is `archive`);
and the manifest read never makes the handler throw. -/
theorem manifest_failure_is_absence (env : Env) (req : Request) (evs more : List Event) :
    electronHandler env req (evs ++ .manifestRead none :: more) =
        electronHandler env req (evs ++ .manifestRead (some none) :: more) ∧
      ((electronHandler env req evs).pc = .threw ∨
        (electronHandler env req (evs ++ [.manifestRead none])).pc ≠ .threw) ∧
      manifestCsp none = "default-src * 'unsafe-inline'" ∧ zipName env none = "archive" := by
  refine ⟨?_, ?_, rfl, rfl⟩
  · rw [run_append, run_append, List.foldl_cons, List.foldl_cons]
    rfl
  · rw [run_append, List.foldl_cons, List.foldl_nil]
    by_cases hpc : (electronHandler env req evs).pc = .readingManifest
    · right
      simp only [step, hpc, if_true]
      exact onManifestRead_pc _ _ _ _
    · by_cases ht : (electronHandler env req evs).pc = .threw
      · exact Or.inl ht
      · right
        simp [step, hpc, ht]

/-! ## Error responses (lines 83-102) -/

/-- C17, as stated, fails: when the caller supplies no info object (the 405 and
the 500 responses), `errorPage` is given the string `code + ' ' + status`, in
which there is no `validatedURL` and no `errorCode`. -/
theorem error_page_counterexample :
    includes (deleteDocsHtml.headers.Accept.getD "") "text/html" = true ∧
      (electronHandler echoEnv deleteDocsHtml []).hostCalls =
        [{ statusCode := 405
           headers := some
             [("Content-Type", "text/html"),
              ("Content-Security-Policy", "default-src 'unsafe-inline' beaker:;"),
              ("Access-Control-Allow-Origin", "*")]
           data := some (.text (echoErrorPage (.text "405 Method Not Supported"))) }] := by
  decide

/-- C17, amended. The response that `respondError` emits for a status code `c`
has status `c`.  When the Accept header contains `text/html` it has Content-Type
`text/html` and a body rendered by `errorPage`: from the caller's info object with
`validatedURL` set to the request URL and `errorCode` set to `c`, whatever the
caller had put there, when the caller supplied one, and from the string
`c + ' ' + status` when it supplied none.  Otherwise the response is the status
code alone, with no headers and no body. -/
theorem error_response_shape (env : Env) (req : Request) (s : State) (code : Nat)
    (status : String) (info : Option ErrorPageInfo)
    (hc : s.called = false) (hno : s.hostCalls = []) :
    ∃ r, (respondError env req s code status info).hostCalls = [r] ∧
      r.statusCode = code ∧
      (includes (req.headers.Accept.getD "") "text/html" = true →
        responseHeader r "Content-Type" = some "text/html" ∧
        r.data = some (.text (env.errorPage
          (match info with
           | some i => .info
              { title := i.title, errorDescription := i.errorDescription
                errorInfo := i.errorInfo, resource := i.resource
                validatedURL := some req.url, errorCode := some code }
           | none => .text (toString code ++ " " ++ status))))) ∧
      (includes (req.headers.Accept.getD "") "text/html" = false →
        r.headers = none ∧ r.data = none) := by
  refine ⟨errorResponse env req code status info, ?_, errorResponse_statusCode _ _ _ _ _, ?_, ?_⟩
  · simp [respondError, respond_eq, hc, hno]
  · intro ha
    unfold errorResponse
    simp only [ha, if_true, responseHeader, Option.bind, getHeader, true_and]
    cases info <;> rfl
  · intro ha
    unfold errorResponse
    simp [ha]

/-- C17 amended, at a concrete call: the caller's `validatedURL` and `errorCode`
are overridden. -/
theorem error_response_shape_witness :
    ∃ r, (respondError echoEnv getDocsHtml (electronHandler echoEnv getDocsHtml []) 504
          "Timed out searching for site" (some staleInfo)).hostCalls = [r] ∧
      r.statusCode = 504 ∧
      r.data = some (.text "info: dat://example.com/docs 504") := by
  obtain ⟨r, h1, h2, h3, _⟩ := error_response_shape echoEnv getDocsHtml
    (electronHandler echoEnv getDocsHtml []) 504 "Timed out searching for site"
    (some staleInfo) (by decide) (by decide)
  exact ⟨r, h1, h2, (h3 (by decide)).2⟩

/-! ## The policy headers (lines 106, 200-221 and 310-314) -/

/-- The response to a streamed file entry whose stream ends before the sniffer
callback fired. -/
theorem ended_response (env : Env) (req : Request) (evs : List Event) (e : Entry)
    (hpc : (electronHandler env req evs).pc = .resolvingPath)
    (hno : (electronHandler env req evs).hostCalls = [])
    (hfile : e.isDirectory = false)
    (hstream : rendersInline env req e = false) :
    (electronHandler env req (evs ++ [.pathResolved (some (some e)), .streamEnd])).hostCalls =
      [{ statusCode := 200
         headers := some
           [("Content-Security-Policy", manifestCsp (electronHandler env req evs).manifest),
            ("Access-Control-Allow-Origin", "*")]
         data := some (.text "") }] := by
  have hinv := inv_run env req evs
  have hst := stage_run env req evs
  have hc := called_of_no_hostCalls (onceInv_run env req evs) hno
  obtain ⟨hhd, _⟩ := hinv.fresh hpc
  have hsent := hinv.notSent hc
  have hcsp := hst.csp hpc
  obtain ⟨sc, hd, hS, _⟩ :=
    step_pathResolved_stream env req _ e hpc hfile hhd hstream
  rw [run_append, List.foldl_cons, List.foldl_cons, List.foldl_nil, hS]
  simp only [step, and_self, if_true]
  refine (hostCalls_onStreamEnd _ ?_ ?_ ?_).trans ?_
  · exact hc
  · exact hno
  · exact hsent
  · simp only [hcsp]

/-- C18. Every response that carries archive content has a
Content-Security-Policy header equal to the manifest's `content_security_policy`
when the manifest exists and that field is a non-empty string, and to the default
policy otherwise, together with `Access-Control-Allow-Origin: *`: the inline
markdown, the streamed file and the answer to `HEAD` of a file (first part), the
empty file (second part), the zip answered to `HEAD` and to `GET` (third part). -/
theorem policy_headers (env : Env) (req : Request) (evs : List Event) (e : Entry)
    (m content : String) (r : Option (Option Manifest)) (h : String)
    (hno : (electronHandler env req evs).hostCalls = []) :
    ((electronHandler env req evs).pc = .resolvingPath → e.isDirectory = false →
      (∃ resp, (electronHandler env req
            (evs ++ [.pathResolved (some (some e)),
              if rendersInline env req e = true then .fileRead (some content)
              else .sniffed m])).hostCalls = [resp] ∧
          responseHeader resp "Content-Security-Policy" =
            some (manifestCsp (electronHandler env req evs).manifest) ∧
          responseHeader resp "Access-Control-Allow-Origin" = some "*") ∧
      (rendersInline env req e = false →
        ∃ resp, (electronHandler env req
            (evs ++ [.pathResolved (some (some e)), .streamEnd])).hostCalls = [resp] ∧
          responseHeader resp "Content-Security-Policy" =
            some (manifestCsp (electronHandler env req evs).manifest) ∧
          responseHeader resp "Access-Control-Allow-Origin" = some "*")) ∧
    ((electronHandler env req evs).pc = .readingManifest →
      (env.parseDatUrl req.url).downloadAs = some "zip" →
      servesShell env req (chosenHandler env req h) = false →
      ∃ resp, (electronHandler env req
          (evs ++ [.manifestRead r, .defaultHandler (some h)])).hostCalls = [resp] ∧
        responseHeader resp "Content-Security-Policy" = some (manifestCsp (r.getD none)) ∧
        responseHeader resp "Access-Control-Allow-Origin" = some "*") := by
  refine ⟨fun hpc hfile => ⟨?_, ?_⟩, fun hpc hzip hshell => ?_⟩
  · by_cases hi : rendersInline env req e = true
    · obtain ⟨hd, h1, _, h3, h4, _⟩ := inline_response env req evs e content hpc hno hfile hi
      rw [if_pos hi]
      refine ⟨_, h1, ?_, ?_⟩
      · simp only [responseHeader, Option.bind]
        rw [getHeader_contentType _ _ _ (by decide)]
        exact h3
      · simp only [responseHeader, Option.bind]
        rw [getHeader_contentType _ _ _ (by decide)]
        exact h4
    · have hi' : rendersInline env req e = false := by simpa using hi
      obtain ⟨sc, hd, h1, _, h3, h4, _⟩ := streamed_response env req evs e m hpc hno hfile hi'
      rw [if_neg hi]
      refine ⟨_, h1, ?_, ?_⟩
      · simp only [responseHeader, Option.bind]
        rw [getHeader_contentType _ _ _ (by decide)]
        exact h3
      · simp only [responseHeader, Option.bind]
        rw [getHeader_contentType _ _ _ (by decide)]
        exact h4
  · intro hstream
    refine ⟨_, ended_response env req evs e hpc hno hfile hstream, ?_, ?_⟩ <;>
      simp [responseHeader, getHeader]
  · obtain ⟨T, hT, hTc, hTh, hTm, hTcsp, _⟩ := zip_stage env req evs r h hpc hno hzip hshell
    obtain ⟨hz1, _⟩ := serveZip_result env req T hTc hTh
    refine ⟨_, (congrArg State.hostCalls hT).trans hz1, ?_, ?_⟩
    · simp [responseHeader, getHeader, hTcsp]
    · simp [responseHeader, getHeader]

/-- C18, at a concrete run: a streamed file of an archive whose manifest declares
the policy `default-src 'self'`. -/
theorem policy_headers_witness :
    ∃ resp, (electronHandler sampleEnv getDocs
          (([.nameResolved (some "key"), .archiveLoaded (some "archive"),
              .checkedOut (some "fs"), .manifestRead (some (some blogManifest)),
              .defaultHandler (some "website")]) ++
            [.pathResolved (some (some docsFile)),
              if rendersInline sampleEnv getDocs docsFile = true then .fileRead (some "")
              else .sniffed "text/plain"])).hostCalls = [resp] ∧
      responseHeader resp "Content-Security-Policy" = some "default-src 'self'" ∧
      responseHeader resp "Access-Control-Allow-Origin" = some "*" := by
  have h := policy_headers sampleEnv getDocs
    [.nameResolved (some "key"), .archiveLoaded (some "archive"), .checkedOut (some "fs"),
      .manifestRead (some (some blogManifest)), .defaultHandler (some "website")]
    docsFile "text/plain" "" none "" (by decide)
  exact (h.1 (by decide) (by decide)).1

/-! ## A Range header that is no range (lines 295-331) -/

/-- C19, at a failing input: a `.md` entry requested with an Accept header that
wants HTML.  Without a Range header it is read whole and rendered inline; with
the malformed header `Range: garbage` the variable `range` keeps the parser's
`-2`, which is truthy, so the entry is streamed instead and `createReadStream`
is given that `-2`; the status and the headers composed so far are the same. -/
theorem malformed_range_divergence :
    sampleEnv.parseRange readme.size "garbage" = .malformed ∧
      ((electronHandler sampleEnv getReadmeHtml
          (upToPath "website" ++ [.pathResolved (some (some readme))])).pc = .readingFile ∧
        Effect.readFile "/readme.md" ∈ (electronHandler sampleEnv getReadmeHtml
          (upToPath "website" ++ [.pathResolved (some (some readme))])).effects) ∧
      ((electronHandler sampleEnv getReadmeBadRange
          (upToPath "website" ++ [.pathResolved (some (some readme))])).pc = .streaming ∧
        Effect.createReadStream "/readme.md" (.unparsed .malformed) ∈
          (electronHandler sampleEnv getReadmeBadRange
            (upToPath "website" ++ [.pathResolved (some (some readme))])).effects) ∧
      (electronHandler sampleEnv getReadmeBadRange
          (upToPath "website" ++ [.pathResolved (some (some readme))])).statusCode =
        (electronHandler sampleEnv getReadmeHtml
          (upToPath "website" ++ [.pathResolved (some (some readme))])).statusCode ∧
      (electronHandler sampleEnv getReadmeBadRange
          (upToPath "website" ++ [.pathResolved (some (some readme))])).headers =
        (electronHandler sampleEnv getReadmeHtml
          (upToPath "website" ++ [.pathResolved (some (some readme))])).headers := by
  decide

end Beaker
